import Mathlib

/-!
Shallow embedding of the ClickHouse-backed metrics layer of
`app-server/src/ch/spans.rs`: time-bucketed trace metrics (trace count,
latency, token count, cost) over relative and absolute windows with gap fill,
plus the time-bounds query.

Each of the eight metric functions in the source builds one ClickHouse query
(a per-trace CTE grouped by `(project_id, trace_id)`, a project- and
window-filtered outer aggregation grouped by truncated time, and an
`ORDER BY time WITH FILL FROM .. TO .. STEP ..` clause) and collects the rows
from a cursor.  The backing store is an external collaborator; it is modelled
here by executable Lean functions following the documented ClickHouse
semantics of the generated SQL text: `toStartOf*` truncation, aggregate
defaults over empty row sets, and `WITH FILL` producing every grid point in
`[FROM, TO)` at `STEP` spacing with default-valued (zero) columns for filled
rows, merged in ascending time order with the (grid-aligned) data rows.

Instants are integers: span `start_time` / `end_time` are nanoseconds since
epoch (as in the source), bucket times are whole seconds since epoch (the
resolution of ClickHouse `DateTime` and of the `time: u32` result column).
Costs and float metric values are rationals.  Uuids are opaque naturals.
-/

namespace ChSpans

/-- Nanoseconds per second; `DateTime<Utc>::timestamp()` floors to whole
seconds, i.e. floor-divides nanoseconds by this factor (`Int` division in
Lean is Euclidean division, which is floor division for this positive
divisor). -/
def nsPerSec : Int := 1000000000

/-- Modelled from the spec: the Interval Model (`GroupByInterval`, module
`ch/modifiers` missing from src/) enumerates the supported bucket
granularities "minute, hour, day, week". -/
inductive GroupByInterval
  | minute
  | hour
  | day
  | week
  deriving DecidableEq

/-- Modelled from the spec: `to_ch_step()`, the width of one bucket in
seconds (the `STEP` argument of the generated `WITH FILL` clause). -/
def stepSec : GroupByInterval → Int
  | .minute => 60
  | .hour => 3600
  | .day => 86400
  | .week => 604800

/-- Anchor of the truncation lattice in epoch seconds.  Minute, hour and day
floors are aligned to the epoch; `toStartOfWeek` is aligned to the first
Sunday after the epoch (1970-01-04, 259200 s). -/
def anchorSec : GroupByInterval → Int
  | .minute => 0
  | .hour => 0
  | .day => 0
  | .week => 259200

/-- Modelled from the spec: `to_ch_truncate_time()` names the ClickHouse
`toStartOf*` function for the granularity; its semantics is rounding an
instant (epoch seconds) down to the start of its bucket, i.e. flooring
`t` to the lattice `anchorSec + k * stepSec`. -/
def chTrunc (g : GroupByInterval) (t : Int) : Int :=
  (t - anchorSec g) / stepSec g * stepSec g + anchorSec g

/-- The `spans` table row written by this file (struct `CHSpan`).  Uuids are
opaque naturals, instants are nanoseconds, costs are rationals. -/
structure Span where
  span_id : Nat
  name : String
  span_type : Nat
  start_time : Int
  end_time : Int
  prompt_tokens : Int
  completion_tokens : Int
  total_tokens : Int
  input_cost : ℚ
  output_cost : ℚ
  total_cost : ℚ
  model : String
  session_id : String
  project_id : Nat
  trace_id : Nat
  provider : String
  user_id : String
  deriving DecidableEq

/-- Grouping key of the per-trace CTE: `GROUP BY project_id, trace_id`. -/
def traceKey (s : Span) : Nat × Nat := (s.project_id, s.trace_id)

/-- The distinct `(project_id, trace_id)` pairs of the table: the groups of
the CTE `SELECT .. FROM spans GROUP BY project_id, trace_id`. -/
def traceKeys (db : List Span) : List (Nat × Nat) :=
  (db.map traceKey).dedup

/-- The spans forming one CTE group. -/
def traceSpans (db : List Span) (k : Nat × Nat) : List Span :=
  db.filter fun s => decide (traceKey s = k)

/-- ClickHouse `MIN` over an integer column: the default value 0 on an empty
row set, the minimum otherwise. -/
def chMin (l : List Int) : Int :=
  match l with
  | [] => 0
  | x :: xs => xs.foldl min x

/-- ClickHouse `MAX` over an integer column: the default value 0 on an empty
row set, the maximum otherwise. -/
def chMax (l : List Int) : Int :=
  match l with
  | [] => 0
  | x :: xs => xs.foldl max x

/-- CTE column `MIN(start_time)` of a trace, in nanoseconds. -/
def traceStartNs (db : List Span) (k : Nat × Nat) : Int :=
  chMin ((traceSpans db k).map Span.start_time)

/-- CTE column `MAX(end_time)` of a trace, in nanoseconds. -/
def traceEndNs (db : List Span) (k : Nat × Nat) : Int :=
  chMax ((traceSpans db k).map Span.end_time)

/-- CTE column `{to_ch_truncate_time}(MIN(start_time)) as time`: the bucket
of the trace's earliest span start (truncation of a `DateTime64` yields a
second-resolution `DateTime`, hence the floor to seconds first). -/
def traceTime (g : GroupByInterval) (db : List Span) (k : Nat × Nat) : Int :=
  chTrunc g (traceStartNs db k / nsPerSec)

/-- CTE column `SUM(total_tokens) as value` of a trace. -/
def traceTokens (db : List Span) (k : Nat × Nat) : Int :=
  ((traceSpans db k).map Span.total_tokens).sum

/-- CTE column `SUM(total_cost) as value` of a trace. -/
def traceCost (db : List Span) (k : Nat × Nat) : ℚ :=
  ((traceSpans db k).map Span.total_cost).sum

/-- CTE column
`toUnixTimestamp64Nano(MAX(end_time)) - toUnixTimestamp64Nano(MIN(start_time))
as value` of a trace, in nanoseconds. -/
def traceLatencyNs (db : List Span) (k : Nat × Nat) : Int :=
  traceEndNs db k - traceStartNs db k

/-- Outer-query filter `WHERE project_id = '{p}'` applied to the CTE rows. -/
def projectKeys (db : List Span) (p : Nat) : List (Nat × Nat) :=
  (traceKeys db).filter fun k => decide (k.1 = p)

/-- CTE rows surviving the relative-window filter
`project_id = '{p}' AND time >= now() - INTERVAL {past_hours} HOUR`.
`now` is the single wall-clock instant (epoch seconds) at which the backing
store evaluates `now()` within the query. -/
def relKeys (db : List Span) (g : GroupByInterval) (p : Nat)
    (pastHours now : Int) : List (Nat × Nat) :=
  (projectKeys db p).filter fun k =>
    decide (now - 3600 * pastHours ≤ traceTime g db k)

/-- CTE rows surviving the absolute-window filter
`project_id = '{p}' AND time >= fromUnixTimestamp({sTs}) AND
time <= fromUnixTimestamp({eTs})` (both bounds in whole epoch seconds). -/
def absKeys (db : List Span) (g : GroupByInterval) (p : Nat)
    (sTs eTs : Int) : List (Nat × Nat) :=
  (projectKeys db p).filter fun k =>
    decide (sTs ≤ traceTime g db k ∧ traceTime g db k ≤ eTs)

/-- Number of fill rows `WITH FILL FROM a TO b STEP s` generates: the grid
points `a, a + s, ...` strictly below `b`, i.e. `⌈(b - a) / s⌉` clamped at
zero. -/
def gridLen (a b s : Int) : Nat := ((b - a + s - 1) / s).toNat

/-- The arithmetic progression `a, a + s, ...` of a given length. -/
def gridList (a s : Int) : Nat → List Int
  | 0 => []
  | n + 1 => a :: gridList (a + s) s n

/-- The fill grid of `WITH FILL FROM a TO b STEP s`: every grid point in
`[a, b)` at spacing `s`. -/
def fillGrid (a b s : Int) : List Int := gridList a s (gridLen a b s)

/-- Lower fill bound of the relative queries:
`{to_ch_truncate_time}(NOW() - INTERVAL {past_hours} HOUR + INTERVAL {to_interval})`
(the one-bucket offset is added before truncating). -/
def relFillFrom (g : GroupByInterval) (pastHours now : Int) : Int :=
  chTrunc g (now - 3600 * pastHours + stepSec g)

/-- Upper fill bound of the relative queries:
`{to_ch_truncate_time}(NOW() + INTERVAL {to_interval})`. -/
def relFillTo (g : GroupByInterval) (now : Int) : Int :=
  chTrunc g (now + stepSec g)

/-- Fill grid of the relative queries. -/
def relGrid (g : GroupByInterval) (pastHours now : Int) : List Int :=
  fillGrid (relFillFrom g pastHours now) (relFillTo g now) (stepSec g)

/-- Fill grid of the absolute queries:
`WITH FILL FROM {trunc}(fromUnixTimestamp({sTs})) TO {trunc}(fromUnixTimestamp({eTs}))`. -/
def absGrid (g : GroupByInterval) (sTs eTs : Int) : List Int :=
  fillGrid (chTrunc g sTs) (chTrunc g eTs) (stepSec g)

/-- Sorted insertion of a time into a strictly increasing list, dropping
duplicates. -/
def insertTime (t : Int) : List Int → List Int
  | [] => [t]
  | x :: xs =>
    if t < x then t :: x :: xs
    else if t = x then x :: xs
    else x :: insertTime t xs

/-- The ascending deduplicated list of times: the output order of
`ORDER BY time WITH FILL` merging data rows and fill rows. -/
def sortTimes (l : List Int) : List Int := l.foldr insertTime []

/-- Result row of the integer metric queries (struct `IntMetricTimeValue`). -/
structure IntMetricTimeValue where
  time : Int
  value : Int
  deriving DecidableEq

/-- Result row of the float metric queries (struct `FloatMetricTimeValue`). -/
structure FloatMetricTimeValue where
  time : Int
  value : ℚ
  deriving DecidableEq

/-- ClickHouse evaluation of
`SELECT time, <value> .. GROUP BY time ORDER BY time WITH FILL ..` for an
integer value column: one row per time in the merged ascending grid, the
aggregated value on data rows, the column default 0 on fill rows. -/
def chFillSeriesInt (grid dataTimes : List Int) (valueAt : Int → Int) :
    List IntMetricTimeValue :=
  (sortTimes (grid ++ dataTimes)).map fun t =>
    ⟨t, if t ∈ dataTimes then valueAt t else 0⟩

/-- ClickHouse evaluation of the same query shape for a float value
column. -/
def chFillSeriesFloat (grid dataTimes : List Int) (valueAt : Int → ℚ) :
    List FloatMetricTimeValue :=
  (sortTimes (grid ++ dataTimes)).map fun t =>
    ⟨t, if t ∈ dataTimes then valueAt t else 0⟩

/-- Modelled from the spec: the Aggregation Model (`Aggregation` and
`to_ch_agg_function()`, missing from src/) selects the reducer the backing
store applies to the grouped per-trace values; it is modelled abstractly as
that reducer, at the integer and at the float column type. -/
structure Aggregation where
  aggInt : List Int → Int
  aggFloat : List ℚ → ℚ

/-- The sum reducer, a concrete `Aggregation` used for evaluation. -/
def sumAgg : Aggregation := ⟨fun l => l.sum, fun l => l.sum⟩

/-- Error taxonomy of the spec (§7); the source signals failures through
`anyhow::Result`. -/
inductive ChError
  | invalidWindow
  | backingStoreUnavailable
  deriving DecidableEq

/-- The row-collection loop
`while let Some(row) = cursor.next().await? { res.push(row) }`: the first
failing fetch aborts the whole operation with that error, discarding the
rows accumulated so far; otherwise all rows are returned. -/
def collectRows {α : Type} : List (Except ChError α) → Except ChError (List α)
  | [] => .ok []
  | .error e :: _ => .error e
  | .ok r :: rest =>
    match collectRows rest with
    | .error e => .error e
    | .ok l => .ok (r :: l)

/-- Modelled from the spec: the Numeric Stabilizer
(`round_small_values_to_zero`, module `ch/utils` missing from src/):
"If `|value| < epsilon` .. return exactly 0.0; otherwise return `value`
unchanged", with the spec's example epsilon 1e-9.  The magnitude test
`|v| < ε` is written as the equivalent two-sided bound `-ε < v < ε`
(see `roundSmallValuesToZero_eq_abs_form`). -/
def roundSmallValuesToZero (v : ℚ) : ℚ :=
  if -(1 / 1000000000) < v ∧ v < 1 / 1000000000 then 0 else v

/-- Post-processing of both latency queries: each fetched row's value
(nanoseconds) is divided by 1e9 and passed through the stabilizer
(`value_sec = value as f64 / 1_000_000_000.0; round_small_values_to_zero(value_sec)`). -/
def latencyPost (rows : List FloatMetricTimeValue) : List FloatMetricTimeValue :=
  rows.map fun r => ⟨r.time, roundSmallValuesToZero (r.value / 1000000000)⟩

/-- The distinct bucket times of the relative outer `GROUP BY time`. -/
def relDataTimes (db : List Span) (g : GroupByInterval) (p : Nat)
    (pastHours now : Int) : List Int :=
  ((relKeys db g p pastHours now).map (traceTime g db)).dedup

/-- The distinct bucket times of the absolute outer `GROUP BY time`. -/
def absDataTimes (db : List Span) (g : GroupByInterval) (p : Nat)
    (sTs eTs : Int) : List Int :=
  ((absKeys db g p sTs eTs).map (traceTime g db)).dedup

/-- The CTE rows of one outer group: the filtered keys whose bucket is a
given time. -/
def keysAt (keys : List (Nat × Nat)) (g : GroupByInterval) (db : List Span)
    (t : Int) : List (Nat × Nat) :=
  keys.filter fun k => decide (traceTime g db k = t)

/-- Outer value `COUNT(DISTINCT(trace_id))` of one bucket of the relative
trace-count query. -/
def relCountValue (db : List Span) (g : GroupByInterval) (p : Nat)
    (pastHours now : Int) (t : Int) : Int :=
  (((keysAt (relKeys db g p pastHours now) g db t).map Prod.snd).dedup.length : Int)

/-- Outer value `COUNT(DISTINCT(trace_id))` of one bucket of the absolute
trace-count query (the CTE of this query also selects an unused
`SUM(total_tokens) as value` column, shadowed by the outer count). -/
def absCountValue (db : List Span) (g : GroupByInterval) (p : Nat)
    (sTs eTs : Int) (t : Int) : Int :=
  (((keysAt (absKeys db g p sTs eTs) g db t).map Prod.snd).dedup.length : Int)

/-- Outer value `{agg}(value)` of one bucket of the relative latency query,
still in nanoseconds (float typed, as aggregates such as `avg` are). -/
def relLatencyValue (db : List Span) (g : GroupByInterval) (p : Nat)
    (pastHours : Int) (agg : Aggregation) (now t : Int) : ℚ :=
  agg.aggFloat ((keysAt (relKeys db g p pastHours now) g db t).map
    fun k => ((traceLatencyNs db k : Int) : ℚ))

/-- Outer value `{agg}(value)` of one bucket of the absolute latency query. -/
def absLatencyValue (db : List Span) (g : GroupByInterval) (p : Nat)
    (sTs eTs : Int) (agg : Aggregation) (t : Int) : ℚ :=
  agg.aggFloat ((keysAt (absKeys db g p sTs eTs) g db t).map
    fun k => ((traceLatencyNs db k : Int) : ℚ))

/-- Outer value `{agg}(value)` of one bucket of the relative token query. -/
def relTokenValue (db : List Span) (g : GroupByInterval) (p : Nat)
    (pastHours : Int) (agg : Aggregation) (now t : Int) : Int :=
  agg.aggInt ((keysAt (relKeys db g p pastHours now) g db t).map (traceTokens db))

/-- Outer value `{agg}(value)` of one bucket of the absolute token query. -/
def absTokenValue (db : List Span) (g : GroupByInterval) (p : Nat)
    (sTs eTs : Int) (agg : Aggregation) (t : Int) : Int :=
  agg.aggInt ((keysAt (absKeys db g p sTs eTs) g db t).map (traceTokens db))

/-- Outer value `{agg}(value)` of one bucket of the relative cost query. -/
def relCostValue (db : List Span) (g : GroupByInterval) (p : Nat)
    (pastHours : Int) (agg : Aggregation) (now t : Int) : ℚ :=
  agg.aggFloat ((keysAt (relKeys db g p pastHours now) g db t).map (traceCost db))

/-- Outer value `{agg}(value)` of one bucket of the absolute cost query. -/
def absCostValue (db : List Span) (g : GroupByInterval) (p : Nat)
    (sTs eTs : Int) (agg : Aggregation) (t : Int) : ℚ :=
  agg.aggFloat ((keysAt (absKeys db g p sTs eTs) g db t).map (traceCost db))

/-- Rows `get_total_trace_count_metrics_relative` fetches from its cursor. -/
def getTotalTraceCountMetricsRelativeRows (db : List Span)
    (g : GroupByInterval) (p : Nat) (pastHours now : Int) :
    List IntMetricTimeValue :=
  chFillSeriesInt (relGrid g pastHours now) (relDataTimes db g p pastHours now)
    (relCountValue db g p pastHours now)

/-- The cursor-consuming tail of `get_total_trace_count_metrics_relative`. -/
def getTotalTraceCountMetricsRelativeFromCursor
    (cursor : List (Except ChError IntMetricTimeValue)) :
    Except ChError (List IntMetricTimeValue) :=
  collectRows cursor

/-- `get_total_trace_count_metrics_relative`. -/
def getTotalTraceCountMetricsRelative (db : List Span) (g : GroupByInterval)
    (p : Nat) (pastHours now : Int) : Except ChError (List IntMetricTimeValue) :=
  getTotalTraceCountMetricsRelativeFromCursor
    ((getTotalTraceCountMetricsRelativeRows db g p pastHours now).map Except.ok)

/-- Rows `get_total_trace_count_metrics_absolute` fetches; the window bounds
are `start_time.timestamp()` / `end_time.timestamp()`, i.e. the instants
floored to whole seconds. -/
def getTotalTraceCountMetricsAbsoluteRows (db : List Span)
    (g : GroupByInterval) (p : Nat) (startNs endNs : Int) :
    List IntMetricTimeValue :=
  chFillSeriesInt (absGrid g (startNs / nsPerSec) (endNs / nsPerSec))
    (absDataTimes db g p (startNs / nsPerSec) (endNs / nsPerSec))
    (absCountValue db g p (startNs / nsPerSec) (endNs / nsPerSec))

/-- `get_total_trace_count_metrics_absolute`. -/
def getTotalTraceCountMetricsAbsolute (db : List Span) (g : GroupByInterval)
    (p : Nat) (startNs endNs : Int) : Except ChError (List IntMetricTimeValue) :=
  collectRows ((getTotalTraceCountMetricsAbsoluteRows db g p startNs endNs).map Except.ok)

/-- Rows `get_trace_latency_seconds_metrics_relative` fetches (before the
seconds conversion and stabilization pass). -/
def getTraceLatencySecondsMetricsRelativeRawRows (db : List Span)
    (g : GroupByInterval) (p : Nat) (pastHours : Int) (agg : Aggregation)
    (now : Int) : List FloatMetricTimeValue :=
  chFillSeriesFloat (relGrid g pastHours now) (relDataTimes db g p pastHours now)
    (relLatencyValue db g p pastHours agg now)

/-- The cursor-consuming tail of `get_trace_latency_seconds_metrics_relative`:
collect all rows, then map each value through `value / 1e9` and the
stabilizer. -/
def getTraceLatencySecondsMetricsRelativeFromCursor
    (cursor : List (Except ChError FloatMetricTimeValue)) :
    Except ChError (List FloatMetricTimeValue) :=
  match collectRows cursor with
  | .error e => .error e
  | .ok rows => .ok (latencyPost rows)

/-- Reported rows of `get_trace_latency_seconds_metrics_relative`. -/
def getTraceLatencySecondsMetricsRelativeRows (db : List Span)
    (g : GroupByInterval) (p : Nat) (pastHours : Int) (agg : Aggregation)
    (now : Int) : List FloatMetricTimeValue :=
  latencyPost (getTraceLatencySecondsMetricsRelativeRawRows db g p pastHours agg now)

/-- `get_trace_latency_seconds_metrics_relative`. -/
def getTraceLatencySecondsMetricsRelative (db : List Span)
    (g : GroupByInterval) (p : Nat) (pastHours : Int) (agg : Aggregation)
    (now : Int) : Except ChError (List FloatMetricTimeValue) :=
  getTraceLatencySecondsMetricsRelativeFromCursor
    ((getTraceLatencySecondsMetricsRelativeRawRows db g p pastHours agg now).map Except.ok)

/-- Rows `get_trace_latency_seconds_metrics_absolute` fetches (before the
seconds conversion and stabilization pass). -/
def getTraceLatencySecondsMetricsAbsoluteRawRows (db : List Span)
    (g : GroupByInterval) (p : Nat) (startNs endNs : Int) (agg : Aggregation) :
    List FloatMetricTimeValue :=
  chFillSeriesFloat (absGrid g (startNs / nsPerSec) (endNs / nsPerSec))
    (absDataTimes db g p (startNs / nsPerSec) (endNs / nsPerSec))
    (absLatencyValue db g p (startNs / nsPerSec) (endNs / nsPerSec) agg)

/-- Reported rows of `get_trace_latency_seconds_metrics_absolute`. -/
def getTraceLatencySecondsMetricsAbsoluteRows (db : List Span)
    (g : GroupByInterval) (p : Nat) (startNs endNs : Int) (agg : Aggregation) :
    List FloatMetricTimeValue :=
  latencyPost (getTraceLatencySecondsMetricsAbsoluteRawRows db g p startNs endNs agg)

/-- `get_trace_latency_seconds_metrics_absolute`. -/
def getTraceLatencySecondsMetricsAbsolute (db : List Span)
    (g : GroupByInterval) (p : Nat) (startNs endNs : Int) (agg : Aggregation) :
    Except ChError (List FloatMetricTimeValue) :=
  match collectRows
      ((getTraceLatencySecondsMetricsAbsoluteRawRows db g p startNs endNs agg).map Except.ok) with
  | .error e => .error e
  | .ok rows => .ok (latencyPost rows)

/-- Rows `get_total_token_count_metrics_relative` fetches. -/
def getTotalTokenCountMetricsRelativeRows (db : List Span)
    (g : GroupByInterval) (p : Nat) (pastHours : Int) (agg : Aggregation)
    (now : Int) : List IntMetricTimeValue :=
  chFillSeriesInt (relGrid g pastHours now) (relDataTimes db g p pastHours now)
    (relTokenValue db g p pastHours agg now)

/-- `get_total_token_count_metrics_relative`. -/
def getTotalTokenCountMetricsRelative (db : List Span) (g : GroupByInterval)
    (p : Nat) (pastHours : Int) (agg : Aggregation) (now : Int) :
    Except ChError (List IntMetricTimeValue) :=
  collectRows ((getTotalTokenCountMetricsRelativeRows db g p pastHours agg now).map Except.ok)

/-- Rows `get_total_token_count_metrics_absolute` fetches. -/
def getTotalTokenCountMetricsAbsoluteRows (db : List Span)
    (g : GroupByInterval) (p : Nat) (startNs endNs : Int) (agg : Aggregation) :
    List IntMetricTimeValue :=
  chFillSeriesInt (absGrid g (startNs / nsPerSec) (endNs / nsPerSec))
    (absDataTimes db g p (startNs / nsPerSec) (endNs / nsPerSec))
    (absTokenValue db g p (startNs / nsPerSec) (endNs / nsPerSec) agg)

/-- `get_total_token_count_metrics_absolute`. -/
def getTotalTokenCountMetricsAbsolute (db : List Span) (g : GroupByInterval)
    (p : Nat) (startNs endNs : Int) (agg : Aggregation) :
    Except ChError (List IntMetricTimeValue) :=
  collectRows ((getTotalTokenCountMetricsAbsoluteRows db g p startNs endNs agg).map Except.ok)

/-- Rows `get_cost_usd_metrics_relative` fetches; unlike the latency
queries, the fetched rows are returned as they are (no stabilizer pass). -/
def getCostUsdMetricsRelativeRows (db : List Span) (g : GroupByInterval)
    (p : Nat) (pastHours : Int) (agg : Aggregation) (now : Int) :
    List FloatMetricTimeValue :=
  chFillSeriesFloat (relGrid g pastHours now) (relDataTimes db g p pastHours now)
    (relCostValue db g p pastHours agg now)

/-- `get_cost_usd_metrics_relative`. -/
def getCostUsdMetricsRelative (db : List Span) (g : GroupByInterval)
    (p : Nat) (pastHours : Int) (agg : Aggregation) (now : Int) :
    Except ChError (List FloatMetricTimeValue) :=
  collectRows ((getCostUsdMetricsRelativeRows db g p pastHours agg now).map Except.ok)

/-- Rows `get_cost_usd_metrics_absolute` fetches; returned without a
stabilizer pass. -/
def getCostUsdMetricsAbsoluteRows (db : List Span) (g : GroupByInterval)
    (p : Nat) (startNs endNs : Int) (agg : Aggregation) :
    List FloatMetricTimeValue :=
  chFillSeriesFloat (absGrid g (startNs / nsPerSec) (endNs / nsPerSec))
    (absDataTimes db g p (startNs / nsPerSec) (endNs / nsPerSec))
    (absCostValue db g p (startNs / nsPerSec) (endNs / nsPerSec) agg)

/-- `get_cost_usd_metrics_absolute`. -/
def getCostUsdMetricsAbsolute (db : List Span) (g : GroupByInterval)
    (p : Nat) (startNs endNs : Int) (agg : Aggregation) :
    Except ChError (List FloatMetricTimeValue) :=
  collectRows ((getCostUsdMetricsAbsoluteRows db g p startNs endNs agg).map Except.ok)

/-- Modelled from the spec: the `TimeBounds` row (module `ch/utils` missing
from src/), "(min_instant, max_instant) over all spans of a project". -/
structure TimeBounds where
  min_time : Int
  max_time : Int
  deriving DecidableEq

/-- `get_time_bounds`:
`SELECT MIN(start_time), MAX(start_time) FROM spans WHERE project_id = '{p}'`
followed by `cursor.next().await?.unwrap()`.  An aggregate query without
`GROUP BY` always yields exactly one row; over an empty filtered set the
aggregates take the column defaults (0). -/
def getTimeBounds (db : List Span) (p : Nat) : Except ChError TimeBounds :=
  let starts := (db.filter fun s => decide (s.project_id = p)).map Span.start_time
  Except.ok ⟨chMin starts, chMax starts⟩

/-- Concrete span used by counterexamples: a trace of project 1 whose only
span starts (and ends) at epoch second 72000, i.e. in the future of the
query instants used alongside it. -/
def futureSpan : Span :=
  ⟨0, "", 0, 72000 * 1000000000, 72000 * 1000000000, 0, 0, 0, 0, 0, 0,
    "", "", 1, 1, "", ""⟩

/-- Concrete span used by counterexamples: a trace of project 1 starting at
the epoch with a tiny cost of 1e-12 USD. -/
def tinyCostSpan : Span :=
  ⟨0, "", 0, 0, 0, 0, 0, 0, 0, 0, 1 / 1000000000000, "", "", 1, 1, "", ""⟩

/-- Concrete span of a foreign project (project 2) reusing trace id 1, used
by the isolation witness. -/
def otherProjectSpan : Span :=
  ⟨0, "", 0, 0, 0, 0, 0, 7, 0, 0, 5, "", "", 2, 1, "", ""⟩

/-- Result guarantee of an integer series (spec §4.4/§8.1-2): strictly
increasing bucket times, equal spacing by the interval step, every boundary
of the fill grid present, and value exactly zero for every bucket carrying
no trace data. -/
def SeriesSpecInt (g : GroupByInterval) (grid dataTimes : List Int)
    (rows : List IntMetricTimeValue) : Prop :=
  rows.Chain' (fun r r' => r.time < r'.time) ∧
  rows.Chain' (fun r r' => r'.time = r.time + stepSec g) ∧
  (∀ t ∈ grid, t ∈ rows.map IntMetricTimeValue.time) ∧
  (∀ r ∈ rows, r.time ∉ dataTimes → r.value = 0)

/-- Result guarantee of a float series, as `SeriesSpecInt`. -/
def SeriesSpecFloat (g : GroupByInterval) (grid dataTimes : List Int)
    (rows : List FloatMetricTimeValue) : Prop :=
  rows.Chain' (fun r r' => r.time < r'.time) ∧
  rows.Chain' (fun r r' => r'.time = r.time + stepSec g) ∧
  (∀ t ∈ grid, t ∈ rows.map FloatMetricTimeValue.time) ∧
  (∀ r ∈ rows, r.time ∉ dataTimes → r.value = 0)

/-! ### Arithmetic facts about truncation and grids -/

theorem stepSec_pos (g : GroupByInterval) : 0 < stepSec g := by
  cases g <;> decide

theorem chTrunc_le (g : GroupByInterval) (t : Int) : chTrunc g t ≤ t := by
  have hs := stepSec_pos g
  have h := Int.ediv_mul_le (t - anchorSec g) (ne_of_gt hs)
  unfold chTrunc
  linarith

theorem lt_chTrunc_add_step (g : GroupByInterval) (t : Int) :
    t < chTrunc g t + stepSec g := by
  have hs := stepSec_pos g
  have h := Int.lt_ediv_add_one_mul_self (t - anchorSec g) hs
  have h2 : ((t - anchorSec g) / stepSec g + 1) * stepSec g
      = (t - anchorSec g) / stepSec g * stepSec g + stepSec g := by ring
  unfold chTrunc
  linarith

theorem chTrunc_add_step (g : GroupByInterval) (t : Int) :
    chTrunc g (t + stepSec g) = chTrunc g t + stepSec g := by
  have hs := stepSec_pos g
  unfold chTrunc
  rw [show t + stepSec g - anchorSec g = t - anchorSec g + 1 * stepSec g by ring,
    Int.add_mul_ediv_right _ _ (ne_of_gt hs)]
  ring

theorem chTrunc_mono (g : GroupByInterval) {u v : Int} (h : u ≤ v) :
    chTrunc g u ≤ chTrunc g v := by
  have hs := stepSec_pos g
  have h1 := Int.ediv_le_ediv hs (by omega : u - anchorSec g ≤ v - anchorSec g)
  unfold chTrunc
  have h2 := mul_le_mul_of_nonneg_right h1 (le_of_lt hs)
  linarith

theorem chTrunc_dvd_sub (g : GroupByInterval) (u v : Int) :
    stepSec g ∣ chTrunc g u - chTrunc g v := by
  unfold chTrunc
  exact ⟨(u - anchorSec g) / stepSec g - (v - anchorSec g) / stepSec g, by ring⟩

theorem eq_zero_of_dvd_of_lt {s r : Int} (hs : 0 < s) (hd : s ∣ r)
    (h0 : 0 ≤ r) (h1 : r < s) : r = 0 := by
  rcases hd with ⟨c, rfl⟩
  by_contra hne
  have hc : 1 ≤ c := by
    rcases lt_trichotomy c 0 with h | h | h
    · have : s * c < 0 := mul_neg_of_pos_of_neg hs h
      linarith
    · simp [h] at hne
    · omega
  have : s ≤ s * c := le_mul_of_one_le_right (le_of_lt hs) hc
  linarith

/-! ### Sorted-merge and grid lemmas -/

theorem mem_insertTime {x t : Int} {l : List Int} :
    x ∈ insertTime t l ↔ x = t ∨ x ∈ l := by
  induction l with
  | nil => simp [insertTime]
  | cons y ys ih =>
    by_cases h1 : t < y
    · simp only [insertTime, if_pos h1, List.mem_cons]
    · by_cases h2 : t = y
      · subst h2
        simp [insertTime, h1]
      · simp only [insertTime, if_neg h1, if_neg h2, List.mem_cons, ih]
        tauto

theorem pairwise_insertTime {t : Int} {l : List Int}
    (h : l.Pairwise (· < ·)) : (insertTime t l).Pairwise (· < ·) := by
  induction l with
  | nil => simp [insertTime]
  | cons y ys ih =>
    rw [List.pairwise_cons] at h
    obtain ⟨hy, hys⟩ := h
    simp only [insertTime]
    split
    · rename_i h1
      rw [List.pairwise_cons]
      refine ⟨?_, ?_⟩
      · intro b hb
        rcases List.mem_cons.mp hb with rfl | hb
        · exact h1
        · exact lt_trans h1 (hy b hb)
      · rw [List.pairwise_cons]
        exact ⟨hy, hys⟩
    · split
      · rw [List.pairwise_cons]
        exact ⟨hy, hys⟩
      · rename_i h1 h2
        have hyt : y < t := by omega
        rw [List.pairwise_cons]
        refine ⟨?_, ih hys⟩
        intro b hb
        rcases mem_insertTime.mp hb with rfl | hb
        · exact hyt
        · exact hy b hb

theorem mem_sortTimes {x : Int} {l : List Int} : x ∈ sortTimes l ↔ x ∈ l := by
  induction l with
  | nil => simp [sortTimes]
  | cons y ys ih =>
    show x ∈ insertTime y (sortTimes ys) ↔ _
    rw [mem_insertTime, ih]
    simp

theorem pairwise_sortTimes (l : List Int) : (sortTimes l).Pairwise (· < ·) := by
  induction l with
  | nil => simp [sortTimes]
  | cons y ys ih =>
    show (insertTime y (sortTimes ys)).Pairwise (· < ·)
    exact pairwise_insertTime ih

theorem eq_of_pairwise_lt_of_mem {l₁ l₂ : List Int}
    (h₁ : l₁.Pairwise (· < ·)) (h₂ : l₂.Pairwise (· < ·))
    (h : ∀ x, x ∈ l₁ ↔ x ∈ l₂) : l₁ = l₂ := by
  have nd₁ : l₁.Nodup := h₁.imp fun hlt => ne_of_lt hlt
  have nd₂ : l₂.Nodup := h₂.imp fun hlt => ne_of_lt hlt
  have hp : l₁.Perm l₂ := (List.perm_ext_iff_of_nodup nd₁ nd₂).mpr h
  exact List.eq_of_perm_of_sorted hp (h₁.imp fun hlt => le_of_lt hlt)
    (h₂.imp fun hlt => le_of_lt hlt)

theorem gridList_mem {s : Int} : ∀ {n : Nat} {a x : Int},
    x ∈ gridList a s n ↔ ∃ k : Nat, k < n ∧ x = a + (k : Int) * s := by
  intro n
  induction n with
  | zero => intro a x; simp [gridList]
  | succ m ih =>
    intro a x
    simp only [gridList, List.mem_cons, ih]
    constructor
    · rintro (rfl | ⟨k, hk, rfl⟩)
      · exact ⟨0, by omega, by simp⟩
      · exact ⟨k + 1, by omega, by push_cast; ring⟩
    · rintro ⟨k, hk, rfl⟩
      cases k with
      | zero => left; simp
      | succ j => right; exact ⟨j, by omega, by push_cast; ring⟩

theorem gridList_chain (s : Int) : ∀ (n : Nat) (a : Int),
    (gridList a s n).Chain' (fun x y => y = x + s)
  | 0, _ => by simp [gridList]
  | 1, _ => by simp [gridList]
  | n + 2, a => by
    show List.Chain' _ (a :: (a + s) :: gridList (a + s + s) s n)
    rw [List.chain'_cons]
    exact ⟨rfl, gridList_chain s (n + 1) (a + s)⟩

theorem gridList_pairwise_lt {s : Int} (hs : 0 < s) : ∀ (n : Nat) (a : Int),
    (gridList a s n).Pairwise (· < ·)
  | 0, _ => by simp [gridList]
  | n + 1, a => by
    show (a :: gridList (a + s) s n).Pairwise (· < ·)
    rw [List.pairwise_cons]
    refine ⟨?_, gridList_pairwise_lt hs n (a + s)⟩
    intro b hb
    obtain ⟨k, _, rfl⟩ := gridList_mem.mp hb
    have h1 : (0 : Int) < ((k : Int) + 1) * s := by positivity
    have h2 : ((k : Int) + 1) * s = (k : Int) * s + s := by ring
    linarith

theorem gridList_append_last (s : Int) : ∀ (n : Nat) (a : Int),
    gridList a s (n + 1) = gridList a s n ++ [a + (n : Int) * s]
  | 0, a => by simp [gridList]
  | n + 1, a => by
    show a :: gridList (a + s) s (n + 1) = (a :: gridList (a + s) s n) ++ _
    rw [List.cons_append, gridList_append_last s n (a + s)]
    congr 3
    push_cast
    ring

theorem mem_fillGrid_of {a b s x : Int} (hs : 0 < s) (hd : s ∣ x - a)
    (h1 : a ≤ x) (h2 : x < b) : x ∈ fillGrid a b s := by
  obtain ⟨m, hm⟩ := hd
  have hm0 : 0 ≤ m := by
    by_contra hneg
    push_neg at hneg
    have : s * m < 0 := mul_neg_of_pos_of_neg hs hneg
    linarith
  have h3 : s * m ≤ b - a - 1 := by linarith
  have h4 : m ≤ (b - a - 1) / s := by
    calc m = s * m / s := (Int.mul_ediv_cancel_left m (ne_of_gt hs)).symm
      _ ≤ (b - a - 1) / s := Int.ediv_le_ediv hs h3
  have h5 : (b - a + s - 1) / s = (b - a - 1) / s + 1 := by
    rw [show b - a + s - 1 = b - a - 1 + 1 * s by ring,
      Int.add_mul_ediv_right _ _ (ne_of_gt hs)]
  have h6 : m < (b - a + s - 1) / s := by linarith
  refine gridList_mem.mpr ⟨m.toNat, ?_, ?_⟩
  · unfold gridLen
    omega
  · rw [Int.toNat_of_nonneg hm0]
    linarith [mul_comm (m : Int) s]

theorem gridLen_eq_zero {a b s : Int} (hs : 0 < s) (h : b ≤ a) :
    gridLen a b s = 0 := by
  have h1 : (b - a + s - 1) / s ≤ (s - 1) / s :=
    Int.ediv_le_ediv hs (by omega)
  have h2 : (s - 1) / s = 0 := Int.ediv_eq_zero_of_lt (by omega) (by omega)
  unfold gridLen
  omega

theorem gridLen_last_of_dvd {a b s : Int} (hs : 0 < s) (hd : s ∣ b - a)
    (hab : a ≤ b) : a + (gridLen a b s : Int) * s = b := by
  obtain ⟨m, hm⟩ := hd
  have hm0 : 0 ≤ m := by
    by_contra hneg
    push_neg at hneg
    have : s * m < 0 := mul_neg_of_pos_of_neg hs hneg
    linarith
  have h5 : (b - a + s - 1) / s = m := by
    rw [show b - a + s - 1 = s - 1 + m * s by rw [hm]; ring,
      Int.add_mul_ediv_right _ _ (ne_of_gt hs),
      Int.ediv_eq_zero_of_lt (by omega) (by omega), zero_add]
  unfold gridLen
  rw [h5, Int.toNat_of_nonneg hm0]
  linarith [mul_comm (m : Int) s]

/-! ### Aggregate and cursor lemmas -/

theorem foldl_min_le_init : ∀ (l : List Int) (a : Int), l.foldl min a ≤ a
  | [], a => le_refl a
  | x :: xs, a => by
    simp only [List.foldl_cons]
    exact le_trans (foldl_min_le_init xs (min a x)) (min_le_left a x)

theorem foldl_min_le_mem : ∀ (l : List Int) (a x : Int), x ∈ l → l.foldl min a ≤ x
  | [], _, _, h => by simp at h
  | y :: ys, a, x, h => by
    simp only [List.foldl_cons]
    rcases List.mem_cons.mp h with rfl | h
    · exact le_trans (foldl_min_le_init ys (min a x)) (min_le_right a x)
    · exact foldl_min_le_mem ys (min a y) x h

theorem chMin_le_of_mem {l : List Int} {x : Int} (h : x ∈ l) : chMin l ≤ x := by
  cases l with
  | nil => simp at h
  | cons y ys =>
    rcases List.mem_cons.mp h with rfl | h
    · exact foldl_min_le_init ys x
    · exact foldl_min_le_mem ys y x h

theorem collectRows_map_ok {α : Type} (l : List α) :
    collectRows (l.map Except.ok) = Except.ok l := by
  induction l with
  | nil => rfl
  | cons x xs ih => simp [collectRows, ih]

theorem collectRows_append_error {α : Type} (pre : List α) (e : ChError)
    (rest : List (Except ChError α)) :
    collectRows (pre.map Except.ok ++ Except.error e :: rest) = Except.error e := by
  induction pre with
  | nil => rfl
  | cons x xs ih => simp [collectRows, ih]

/-! ### Window core lemmas -/

theorem chTrunc_idem (g : GroupByInterval) (t : Int) :
    chTrunc g (chTrunc g t) = chTrunc g t := by
  have hs := stepSec_pos g
  unfold chTrunc
  rw [show (t - anchorSec g) / stepSec g * stepSec g + anchorSec g - anchorSec g
      = (t - anchorSec g) / stepSec g * stepSec g by ring,
    Int.mul_ediv_cancel _ (ne_of_gt hs)]

theorem gridList_succ (a s : Int) (n : Nat) :
    gridList a s (n + 1) = a :: gridList (a + s) s n := rfl

theorem traceTime_le_chTrunc_now {db : List Span} {g : GroupByInterval}
    {k : Nat × Nat} {now : Int} (hk : k ∈ traceKeys db)
    (hfut : ∀ sp ∈ db, sp.start_time ≤ now * nsPerSec) :
    traceTime g db k ≤ chTrunc g now := by
  obtain ⟨sp, hsp, hkey⟩ : ∃ sp ∈ db, traceKey sp = k := by
    obtain ⟨sp, hsp, h⟩ := List.mem_map.mp (List.mem_dedup.mp hk)
    exact ⟨sp, hsp, h⟩
  have hmem : sp ∈ traceSpans db k := by
    unfold traceSpans
    rw [List.mem_filter]
    exact ⟨hsp, by simp [hkey]⟩
  have h1 : traceStartNs db k ≤ sp.start_time :=
    chMin_le_of_mem (List.mem_map_of_mem Span.start_time hmem)
  have h2 : traceStartNs db k / nsPerSec ≤ now := by
    have h3 := Int.ediv_le_ediv (by decide : (0 : Int) < nsPerSec)
      (le_trans h1 (hfut sp hsp))
    rwa [Int.mul_ediv_cancel _ (by decide : nsPerSec ≠ 0)] at h3
  exact chTrunc_mono g h2

theorem relDataTimes_elim {db : List Span} {g : GroupByInterval} {p : Nat}
    {D now x : Int} (hx : x ∈ relDataTimes db g p D now) :
    ∃ k ∈ relKeys db g p D now, traceTime g db k = x := by
  obtain ⟨k, hk, he⟩ := List.mem_map.mp (List.mem_dedup.mp hx)
  exact ⟨k, hk, he⟩

theorem absDataTimes_elim {db : List Span} {g : GroupByInterval} {p : Nat}
    {sTs eTs x : Int} (hx : x ∈ absDataTimes db g p sTs eTs) :
    ∃ k ∈ absKeys db g p sTs eTs, traceTime g db k = x := by
  obtain ⟨k, hk, he⟩ := List.mem_map.mp (List.mem_dedup.mp hx)
  exact ⟨k, hk, he⟩

theorem relTimes_spec (db : List Span) (g : GroupByInterval) (p : Nat)
    (D now : Int) (hfut : ∀ sp ∈ db, sp.start_time ≤ now * nsPerSec) :
    ∃ (a0 : Int) (n : Nat),
      sortTimes (relGrid g D now ++ relDataTimes db g p D now)
        = gridList a0 (stepSec g) n ∧
      ∀ t ∈ relGrid g D now, t ∈ gridList a0 (stepSec g) n := by
  have hs := stepSec_pos g
  have haval : relFillFrom g D now = chTrunc g (now - 3600 * D) + stepSec g :=
    chTrunc_add_step g (now - 3600 * D)
  have hbval : relFillTo g now = chTrunc g now + stepSec g :=
    chTrunc_add_step g now
  have hdata : ∀ x ∈ relDataTimes db g p D now,
      x = relFillFrom g D now - stepSec g ∨ x ∈ relGrid g D now := by
    intro x hx
    obtain ⟨k, hk, rfl⟩ := relDataTimes_elim hx
    have hkp : k ∈ projectKeys db p := List.mem_of_mem_filter hk
    have hkt : k ∈ traceKeys db := List.mem_of_mem_filter hkp
    have hlb : now - 3600 * D ≤ traceTime g db k :=
      of_decide_eq_true (List.mem_filter.mp hk).2
    have hub : traceTime g db k ≤ chTrunc g now :=
      traceTime_le_chTrunc_now hkt hfut
    have hdvd : stepSec g ∣ traceTime g db k - relFillFrom g D now := by
      show stepSec g ∣ chTrunc g (traceStartNs db k / nsPerSec)
        - chTrunc g (now - 3600 * D + stepSec g)
      exact chTrunc_dvd_sub g _ _
    by_cases hcase : traceTime g db k < relFillFrom g D now
    · left
      have h0 : relFillFrom g D now - stepSec g ≤ traceTime g db k := by
        have := chTrunc_le g (now - 3600 * D)
        linarith
      have hdvd2 : stepSec g ∣
          traceTime g db k - (relFillFrom g D now - stepSec g) := by
        obtain ⟨c, hc⟩ := hdvd
        exact ⟨c + 1, by rw [mul_add, mul_one, ← hc]; ring⟩
      have := eq_zero_of_dvd_of_lt hs hdvd2 (by linarith) (by linarith)
      linarith
    · right
      push_neg at hcase
      refine mem_fillGrid_of hs hdvd hcase ?_
      calc traceTime g db k ≤ chTrunc g now := hub
        _ < relFillTo g now := by linarith
  by_cases hex : relFillFrom g D now - stepSec g ∈ relDataTimes db g p D now
  · refine ⟨relFillFrom g D now - stepSec g,
      gridLen (relFillFrom g D now) (relFillTo g now) (stepSec g) + 1, ?_, ?_⟩
    · apply eq_of_pairwise_lt_of_mem (pairwise_sortTimes _)
        (gridList_pairwise_lt hs _ _)
      intro x
      rw [mem_sortTimes, List.mem_append, gridList_succ,
        show relFillFrom g D now - stepSec g + stepSec g = relFillFrom g D now
          by ring, List.mem_cons]
      constructor
      · rintro (hg | hd)
        · exact Or.inr hg
        · rcases hdata x hd with he | hg
          · exact Or.inl he
          · exact Or.inr hg
      · rintro (rfl | hg)
        · exact Or.inr hex
        · exact Or.inl hg
    · intro t ht
      rw [gridList_succ,
        show relFillFrom g D now - stepSec g + stepSec g = relFillFrom g D now
          by ring]
      exact List.mem_cons_of_mem _ ht
  · refine ⟨relFillFrom g D now,
      gridLen (relFillFrom g D now) (relFillTo g now) (stepSec g), ?_, fun t ht => ht⟩
    apply eq_of_pairwise_lt_of_mem (pairwise_sortTimes _)
      (gridList_pairwise_lt hs _ _)
    intro x
    rw [mem_sortTimes, List.mem_append]
    constructor
    · rintro (hg | hd)
      · exact hg
      · rcases hdata x hd with he | hg
        · subst he
          exact absurd hd hex
        · exact hg
    · exact fun hg => Or.inl hg

theorem absTimes_spec (db : List Span) (g : GroupByInterval) (p : Nat)
    (sTs eTs : Int) :
    ∃ (a0 : Int) (n : Nat),
      sortTimes (absGrid g sTs eTs ++ absDataTimes db g p sTs eTs)
        = gridList a0 (stepSec g) n ∧
      ∀ t ∈ absGrid g sTs eTs, t ∈ gridList a0 (stepSec g) n := by
  have hs := stepSec_pos g
  have hdata : ∀ x ∈ absDataTimes db g p sTs eTs,
      chTrunc g sTs ≤ x ∧ (x = chTrunc g eTs ∨ x ∈ absGrid g sTs eTs) := by
    intro x hx
    obtain ⟨k, hk, rfl⟩ := absDataTimes_elim hx
    have hfil : sTs ≤ traceTime g db k ∧ traceTime g db k ≤ eTs :=
      of_decide_eq_true (List.mem_filter.mp hk).2
    have hxa : chTrunc g sTs ≤ traceTime g db k :=
      le_trans (chTrunc_le g sTs) hfil.1
    refine ⟨hxa, ?_⟩
    have hid : chTrunc g (traceTime g db k) = traceTime g db k := by
      show chTrunc g (chTrunc g (traceStartNs db k / nsPerSec)) = _
      exact chTrunc_idem g _
    have hxb : traceTime g db k ≤ chTrunc g eTs := by
      have h1 : chTrunc g (traceTime g db k) ≤ chTrunc g eTs :=
        chTrunc_mono g hfil.2
      linarith
    have hdvd : stepSec g ∣ traceTime g db k - chTrunc g sTs := by
      show stepSec g ∣ chTrunc g (traceStartNs db k / nsPerSec) - chTrunc g sTs
      exact chTrunc_dvd_sub g _ _
    by_cases hcase : traceTime g db k < chTrunc g eTs
    · exact Or.inr (mem_fillGrid_of hs hdvd hxa hcase)
    · left
      omega
  by_cases hex : chTrunc g eTs ∈ absDataTimes db g p sTs eTs
  · have hab : chTrunc g sTs ≤ chTrunc g eTs := (hdata _ hex).1
    have hdvdab : stepSec g ∣ chTrunc g eTs - chTrunc g sTs :=
      chTrunc_dvd_sub g _ _
    have hlast := gridLen_last_of_dvd hs hdvdab hab
    refine ⟨chTrunc g sTs,
      gridLen (chTrunc g sTs) (chTrunc g eTs) (stepSec g) + 1, ?_, ?_⟩
    · apply eq_of_pairwise_lt_of_mem (pairwise_sortTimes _)
        (gridList_pairwise_lt hs _ _)
      intro x
      rw [mem_sortTimes, List.mem_append, gridList_append_last, hlast,
        List.mem_append, List.mem_singleton]
      constructor
      · rintro (hg | hd)
        · exact Or.inl hg
        · rcases (hdata x hd).2 with he | hg
          · exact Or.inr he
          · exact Or.inl hg
      · rintro (hg | rfl)
        · exact Or.inl hg
        · exact Or.inr hex
    · intro t ht
      rw [gridList_append_last, hlast, List.mem_append]
      exact Or.inl ht
  · refine ⟨chTrunc g sTs,
      gridLen (chTrunc g sTs) (chTrunc g eTs) (stepSec g), ?_, fun t ht => ht⟩
    apply eq_of_pairwise_lt_of_mem (pairwise_sortTimes _)
      (gridList_pairwise_lt hs _ _)
    intro x
    rw [mem_sortTimes, List.mem_append]
    constructor
    · rintro (hg | hd)
      · exact hg
      · rcases (hdata x hd).2 with he | hg
        · subst he
          exact absurd hd hex
        · exact hg
    · exact fun hg => Or.inl hg

/-! ### Series shape lemmas -/

theorem seriesSpecInt_of_gridTimes {g : GroupByInterval} {grid data : List Int}
    {f : Int → Int} {a0 : Int} {n : Nat}
    (hout : sortTimes (grid ++ data) = gridList a0 (stepSec g) n)
    (hcov : ∀ t ∈ grid, t ∈ gridList a0 (stepSec g) n) :
    SeriesSpecInt g grid data (chFillSeriesInt grid data f) := by
  have hs := stepSec_pos g
  unfold SeriesSpecInt chFillSeriesInt
  rw [hout]
  refine ⟨?_, ?_, ?_, ?_⟩
  · rw [List.chain'_map]
    exact List.Pairwise.chain' (gridList_pairwise_lt hs n a0)
  · rw [List.chain'_map]
    exact gridList_chain (stepSec g) n a0
  · intro t ht
    rw [List.map_map]
    exact List.mem_map.mpr ⟨t, hcov t ht, rfl⟩
  · intro r hr hnd
    obtain ⟨t, ht, rfl⟩ := List.mem_map.mp hr
    have hnd' : t ∉ data := hnd
    show (if t ∈ data then f t else 0) = 0
    rw [if_neg hnd']

theorem seriesSpecFloat_of_gridTimes {g : GroupByInterval} {grid data : List Int}
    {f : Int → ℚ} {a0 : Int} {n : Nat}
    (hout : sortTimes (grid ++ data) = gridList a0 (stepSec g) n)
    (hcov : ∀ t ∈ grid, t ∈ gridList a0 (stepSec g) n) :
    SeriesSpecFloat g grid data (chFillSeriesFloat grid data f) := by
  have hs := stepSec_pos g
  unfold SeriesSpecFloat chFillSeriesFloat
  rw [hout]
  refine ⟨?_, ?_, ?_, ?_⟩
  · rw [List.chain'_map]
    exact List.Pairwise.chain' (gridList_pairwise_lt hs n a0)
  · rw [List.chain'_map]
    exact gridList_chain (stepSec g) n a0
  · intro t ht
    rw [List.map_map]
    exact List.mem_map.mpr ⟨t, hcov t ht, rfl⟩
  · intro r hr hnd
    obtain ⟨t, ht, rfl⟩ := List.mem_map.mp hr
    have hnd' : t ∉ data := hnd
    show (if t ∈ data then f t else 0) = 0
    rw [if_neg hnd']

theorem seriesSpecFloat_latencyPost {g : GroupByInterval} {grid data : List Int}
    {f : Int → ℚ} {a0 : Int} {n : Nat}
    (hout : sortTimes (grid ++ data) = gridList a0 (stepSec g) n)
    (hcov : ∀ t ∈ grid, t ∈ gridList a0 (stepSec g) n) :
    SeriesSpecFloat g grid data (latencyPost (chFillSeriesFloat grid data f)) := by
  have hs := stepSec_pos g
  unfold SeriesSpecFloat latencyPost chFillSeriesFloat
  rw [List.map_map, hout]
  refine ⟨?_, ?_, ?_, ?_⟩
  · rw [List.chain'_map]
    exact List.Pairwise.chain' (gridList_pairwise_lt hs n a0)
  · rw [List.chain'_map]
    exact gridList_chain (stepSec g) n a0
  · intro t ht
    rw [List.map_map]
    exact List.mem_map.mpr ⟨t, hcov t ht, rfl⟩
  · intro r hr hnd
    obtain ⟨t, ht, rfl⟩ := List.mem_map.mp hr
    have hnd' : t ∉ data := hnd
    show roundSmallValuesToZero ((if t ∈ data then f t else 0) / 1000000000) = 0
    rw [if_neg hnd']
    norm_num [roundSmallValuesToZero]

/-! ### Project isolation lemmas -/

theorem filter_dedup_append_not {α : Type} [DecidableEq α] {l₂ : List α}
    {q : α → Bool} (h : ∀ x ∈ l₂, q x = false) :
    ∀ l₁ : List α, (l₁ ++ l₂).dedup.filter q = l₁.dedup.filter q
  | [] => by
    simp only [List.nil_append, List.dedup_nil, List.filter_nil]
    exact List.filter_eq_nil_iff.mpr fun x hx => by
      simp [h x (List.mem_dedup.mp hx)]
  | a :: l₁ => by
    by_cases hmem : a ∈ l₁ ++ l₂
    · rw [List.cons_append, List.dedup_cons_of_mem hmem]
      by_cases h1 : a ∈ l₁
      · rw [List.dedup_cons_of_mem h1]
        exact filter_dedup_append_not h l₁
      · have h2 : a ∈ l₂ := by
          rcases List.mem_append.mp hmem with hc | hc
          · exact absurd hc h1
          · exact hc
        rw [List.dedup_cons_of_not_mem h1,
          List.filter_cons_of_neg (by simp [h a h2])]
        exact filter_dedup_append_not h l₁
    · have h1 : a ∉ l₁ := fun hh => hmem (List.mem_append.mpr (Or.inl hh))
      rw [List.cons_append, List.dedup_cons_of_not_mem hmem,
        List.dedup_cons_of_not_mem h1]
      by_cases hq : q a = true
      · rw [List.filter_cons_of_pos hq, List.filter_cons_of_pos hq,
          filter_dedup_append_not h l₁]
      · rw [List.filter_cons_of_neg (by simp [hq]),
          List.filter_cons_of_neg (by simp [hq])]
        exact filter_dedup_append_not h l₁

theorem traceSpans_append {db extra : List Span} {p : Nat} {k : Nat × Nat}
    (hext : ∀ sp ∈ extra, sp.project_id ≠ p) (hk : k.1 = p) :
    traceSpans (db ++ extra) k = traceSpans db k := by
  unfold traceSpans
  rw [List.filter_append,
    show extra.filter (fun s => decide (traceKey s = k)) = [] from
      List.filter_eq_nil_iff.mpr fun sp hsp => by
        simp only [decide_eq_true_eq]
        intro he
        exact hext sp hsp (by rw [show sp.project_id = (traceKey sp).1 from rfl, he, hk]),
    List.append_nil]

theorem traceStartNs_append {db extra : List Span} {p : Nat} {k : Nat × Nat}
    (hext : ∀ sp ∈ extra, sp.project_id ≠ p) (hk : k.1 = p) :
    traceStartNs (db ++ extra) k = traceStartNs db k := by
  unfold traceStartNs
  rw [traceSpans_append hext hk]

theorem traceEndNs_append {db extra : List Span} {p : Nat} {k : Nat × Nat}
    (hext : ∀ sp ∈ extra, sp.project_id ≠ p) (hk : k.1 = p) :
    traceEndNs (db ++ extra) k = traceEndNs db k := by
  unfold traceEndNs
  rw [traceSpans_append hext hk]

theorem traceTime_append {g : GroupByInterval} {db extra : List Span} {p : Nat}
    {k : Nat × Nat} (hext : ∀ sp ∈ extra, sp.project_id ≠ p) (hk : k.1 = p) :
    traceTime g (db ++ extra) k = traceTime g db k := by
  unfold traceTime
  rw [traceStartNs_append hext hk]

theorem traceTokens_append {db extra : List Span} {p : Nat} {k : Nat × Nat}
    (hext : ∀ sp ∈ extra, sp.project_id ≠ p) (hk : k.1 = p) :
    traceTokens (db ++ extra) k = traceTokens db k := by
  unfold traceTokens
  rw [traceSpans_append hext hk]

theorem traceCost_append {db extra : List Span} {p : Nat} {k : Nat × Nat}
    (hext : ∀ sp ∈ extra, sp.project_id ≠ p) (hk : k.1 = p) :
    traceCost (db ++ extra) k = traceCost db k := by
  unfold traceCost
  rw [traceSpans_append hext hk]

theorem traceLatencyNs_append {db extra : List Span} {p : Nat} {k : Nat × Nat}
    (hext : ∀ sp ∈ extra, sp.project_id ≠ p) (hk : k.1 = p) :
    traceLatencyNs (db ++ extra) k = traceLatencyNs db k := by
  unfold traceLatencyNs
  rw [traceStartNs_append hext hk, traceEndNs_append hext hk]

theorem projectKeys_append {db extra : List Span} {p : Nat}
    (hext : ∀ sp ∈ extra, sp.project_id ≠ p) :
    projectKeys (db ++ extra) p = projectKeys db p := by
  unfold projectKeys traceKeys
  rw [List.map_append]
  exact filter_dedup_append_not
    (fun x hx => by
      obtain ⟨sp, hsp, rfl⟩ := List.mem_map.mp hx
      exact decide_eq_false (hext sp hsp)) _

theorem projectKeys_fst {db : List Span} {p : Nat} {k : Nat × Nat}
    (hk : k ∈ projectKeys db p) : k.1 = p :=
  of_decide_eq_true (List.mem_filter.mp hk).2

theorem relKeys_fst {db : List Span} {g : GroupByInterval} {p : Nat}
    {D now : Int} {k : Nat × Nat} (hk : k ∈ relKeys db g p D now) : k.1 = p :=
  projectKeys_fst (List.mem_of_mem_filter hk)

theorem absKeys_fst {db : List Span} {g : GroupByInterval} {p : Nat}
    {sTs eTs : Int} {k : Nat × Nat} (hk : k ∈ absKeys db g p sTs eTs) : k.1 = p :=
  projectKeys_fst (List.mem_of_mem_filter hk)

theorem relKeys_append {db extra : List Span} {g : GroupByInterval} {p : Nat}
    {D now : Int} (hext : ∀ sp ∈ extra, sp.project_id ≠ p) :
    relKeys (db ++ extra) g p D now = relKeys db g p D now := by
  unfold relKeys
  rw [projectKeys_append hext]
  exact List.filter_congr fun k hk => by
    rw [traceTime_append hext (projectKeys_fst hk)]

theorem absKeys_append {db extra : List Span} {g : GroupByInterval} {p : Nat}
    {sTs eTs : Int} (hext : ∀ sp ∈ extra, sp.project_id ≠ p) :
    absKeys (db ++ extra) g p sTs eTs = absKeys db g p sTs eTs := by
  unfold absKeys
  rw [projectKeys_append hext]
  exact List.filter_congr fun k hk => by
    rw [traceTime_append hext (projectKeys_fst hk)]

theorem relDataTimes_append {db extra : List Span} {g : GroupByInterval}
    {p : Nat} {D now : Int} (hext : ∀ sp ∈ extra, sp.project_id ≠ p) :
    relDataTimes (db ++ extra) g p D now = relDataTimes db g p D now := by
  unfold relDataTimes
  rw [relKeys_append hext]
  exact congrArg List.dedup (List.map_congr_left fun k hk =>
    traceTime_append hext (relKeys_fst hk))

theorem absDataTimes_append {db extra : List Span} {g : GroupByInterval}
    {p : Nat} {sTs eTs : Int} (hext : ∀ sp ∈ extra, sp.project_id ≠ p) :
    absDataTimes (db ++ extra) g p sTs eTs = absDataTimes db g p sTs eTs := by
  unfold absDataTimes
  rw [absKeys_append hext]
  exact congrArg List.dedup (List.map_congr_left fun k hk =>
    traceTime_append hext (absKeys_fst hk))

theorem keysAt_rel_append {db extra : List Span} {g : GroupByInterval}
    {p : Nat} {D now t : Int} (hext : ∀ sp ∈ extra, sp.project_id ≠ p) :
    keysAt (relKeys db g p D now) g (db ++ extra) t
      = keysAt (relKeys db g p D now) g db t := by
  unfold keysAt
  exact List.filter_congr fun k hk => by
    rw [traceTime_append hext (relKeys_fst hk)]

theorem keysAt_abs_append {db extra : List Span} {g : GroupByInterval}
    {p : Nat} {sTs eTs t : Int} (hext : ∀ sp ∈ extra, sp.project_id ≠ p) :
    keysAt (absKeys db g p sTs eTs) g (db ++ extra) t
      = keysAt (absKeys db g p sTs eTs) g db t := by
  unfold keysAt
  exact List.filter_congr fun k hk => by
    rw [traceTime_append hext (absKeys_fst hk)]

theorem relCountValue_append {db extra : List Span} {g : GroupByInterval}
    {p : Nat} {D now : Int} (hext : ∀ sp ∈ extra, sp.project_id ≠ p) :
    relCountValue (db ++ extra) g p D now = relCountValue db g p D now := by
  funext t
  unfold relCountValue
  rw [relKeys_append hext, keysAt_rel_append hext]

theorem absCountValue_append {db extra : List Span} {g : GroupByInterval}
    {p : Nat} {sTs eTs : Int} (hext : ∀ sp ∈ extra, sp.project_id ≠ p) :
    absCountValue (db ++ extra) g p sTs eTs = absCountValue db g p sTs eTs := by
  funext t
  unfold absCountValue
  rw [absKeys_append hext, keysAt_abs_append hext]

theorem relTokenValue_append {db extra : List Span} {g : GroupByInterval}
    {p : Nat} {D : Int} {agg : Aggregation} {now : Int}
    (hext : ∀ sp ∈ extra, sp.project_id ≠ p) :
    relTokenValue (db ++ extra) g p D agg now = relTokenValue db g p D agg now := by
  funext t
  unfold relTokenValue
  rw [relKeys_append hext, keysAt_rel_append hext]
  exact congrArg _ (List.map_congr_left fun k hk =>
    traceTokens_append hext (relKeys_fst (List.mem_of_mem_filter hk)))

theorem absTokenValue_append {db extra : List Span} {g : GroupByInterval}
    {p : Nat} {sTs eTs : Int} {agg : Aggregation}
    (hext : ∀ sp ∈ extra, sp.project_id ≠ p) :
    absTokenValue (db ++ extra) g p sTs eTs agg = absTokenValue db g p sTs eTs agg := by
  funext t
  unfold absTokenValue
  rw [absKeys_append hext, keysAt_abs_append hext]
  exact congrArg _ (List.map_congr_left fun k hk =>
    traceTokens_append hext (absKeys_fst (List.mem_of_mem_filter hk)))

theorem relCostValue_append {db extra : List Span} {g : GroupByInterval}
    {p : Nat} {D : Int} {agg : Aggregation} {now : Int}
    (hext : ∀ sp ∈ extra, sp.project_id ≠ p) :
    relCostValue (db ++ extra) g p D agg now = relCostValue db g p D agg now := by
  funext t
  unfold relCostValue
  rw [relKeys_append hext, keysAt_rel_append hext]
  exact congrArg _ (List.map_congr_left fun k hk =>
    traceCost_append hext (relKeys_fst (List.mem_of_mem_filter hk)))

theorem absCostValue_append {db extra : List Span} {g : GroupByInterval}
    {p : Nat} {sTs eTs : Int} {agg : Aggregation}
    (hext : ∀ sp ∈ extra, sp.project_id ≠ p) :
    absCostValue (db ++ extra) g p sTs eTs agg = absCostValue db g p sTs eTs agg := by
  funext t
  unfold absCostValue
  rw [absKeys_append hext, keysAt_abs_append hext]
  exact congrArg _ (List.map_congr_left fun k hk =>
    traceCost_append hext (absKeys_fst (List.mem_of_mem_filter hk)))

theorem relLatencyValue_append {db extra : List Span} {g : GroupByInterval}
    {p : Nat} {D : Int} {agg : Aggregation} {now : Int}
    (hext : ∀ sp ∈ extra, sp.project_id ≠ p) :
    relLatencyValue (db ++ extra) g p D agg now = relLatencyValue db g p D agg now := by
  funext t
  unfold relLatencyValue
  rw [relKeys_append hext, keysAt_rel_append hext]
  exact congrArg _ (List.map_congr_left fun k hk => by
    rw [traceLatencyNs_append hext (relKeys_fst (List.mem_of_mem_filter hk))])

theorem absLatencyValue_append {db extra : List Span} {g : GroupByInterval}
    {p : Nat} {sTs eTs : Int} {agg : Aggregation}
    (hext : ∀ sp ∈ extra, sp.project_id ≠ p) :
    absLatencyValue (db ++ extra) g p sTs eTs agg = absLatencyValue db g p sTs eTs agg := by
  funext t
  unfold absLatencyValue
  rw [absKeys_append hext, keysAt_abs_append hext]
  exact congrArg _ (List.map_congr_left fun k hk => by
    rw [traceLatencyNs_append hext (absKeys_fst (List.mem_of_mem_filter hk))])

/-! ### Degenerate-window lemmas -/

theorem absKeys_inverted {db : List Span} {g : GroupByInterval} {p : Nat}
    {sTs eTs : Int} (hinv : eTs < sTs) : absKeys db g p sTs eTs = [] := by
  unfold absKeys
  exact List.filter_eq_nil_iff.mpr fun k _ => by
    simp only [decide_eq_true_eq]
    intro hc
    omega

theorem absGrid_inverted {g : GroupByInterval} {sTs eTs : Int}
    (hinv : eTs ≤ sTs) : absGrid g sTs eTs = [] := by
  unfold absGrid fillGrid
  rw [gridLen_eq_zero (stepSec_pos g) (chTrunc_mono g hinv)]
  rfl

theorem absDataTimes_inverted {db : List Span} {g : GroupByInterval} {p : Nat}
    {sTs eTs : Int} (hinv : eTs < sTs) : absDataTimes db g p sTs eTs = [] := by
  unfold absDataTimes
  rw [absKeys_inverted hinv]
  rfl

theorem chFillSeriesInt_nil (f : Int → Int) : chFillSeriesInt [] [] f = [] := rfl

theorem chFillSeriesFloat_nil (f : Int → ℚ) : chFillSeriesFloat [] [] f = [] := rfl

theorem getTimeBounds_append {db extra : List Span} {p : Nat}
    (hext : ∀ sp ∈ extra, sp.project_id ≠ p) :
    getTimeBounds (db ++ extra) p = getTimeBounds db p := by
  unfold getTimeBounds
  rw [List.filter_append,
    show extra.filter (fun s => decide (s.project_id = p)) = [] from
      List.filter_eq_nil_iff.mpr fun sp hsp => by
        simp only [decide_eq_true_eq]
        exact hext sp hsp,
    List.append_nil]

theorem gridList_map_add (s d : Int) : ∀ (n : Nat) (a : Int),
    (gridList a s n).map (· + d) = gridList (a + d) s n
  | 0, _ => rfl
  | n + 1, a => by
    show (a + d) :: (gridList (a + s) s n).map (· + d)
      = (a + d) :: gridList (a + d + s) s n
    rw [gridList_map_add s d n (a + s), show a + s + d = a + d + s by ring]

theorem gridLen_shift (a b s d : Int) : gridLen (a + d) (b + d) s = gridLen a b s := by
  unfold gridLen
  rw [show b + d - (a + d) + s - 1 = b - a + s - 1 by ring]

theorem length_filter_eq_one_of_nodup {α : Type} [DecidableEq α] {l : List α}
    {a : α} (hn : l.Nodup) (ha : a ∈ l) :
    (l.filter fun x => decide (x = a)).length = 1 := by
  induction l with
  | nil => simp at ha
  | cons b bs ih =>
    rw [List.nodup_cons] at hn
    rcases List.mem_cons.mp ha with rfl | ha2
    · rw [List.filter_cons_of_pos (by simp)]
      rw [show bs.filter (fun x => decide (x = a)) = [] from
        List.filter_eq_nil_iff.mpr fun x hx => by
          simp only [decide_eq_true_eq]
          rintro rfl
          exact hn.1 hx]
      rfl
    · by_cases hba : b = a
      · subst hba
        exact absurd ha2 hn.1
      · rw [List.filter_cons_of_neg (by simp [hba])]
        exact ih hn.2 ha2

theorem roundSmallValuesToZero_eq_abs_form (v : ℚ) :
    roundSmallValuesToZero v = if |v| < 1 / 1000000000 then 0 else v := by
  unfold roundSmallValuesToZero
  by_cases h : |v| < 1 / 1000000000
  · rw [if_pos (abs_lt.mp h), if_pos h]
  · rw [if_neg (fun hc => h (abs_lt.mpr hc)), if_neg h]

theorem roundSmall_idem (x : ℚ) :
    roundSmallValuesToZero (roundSmallValuesToZero x) = roundSmallValuesToZero x := by
  unfold roundSmallValuesToZero
  by_cases h : -(1 / 1000000000) < x ∧ x < 1 / 1000000000
  · rw [if_pos h, if_pos (by norm_num)]
  · rw [if_neg h, if_neg h]

/-! ### Claim theorems -/

/-- Claim C1, counterexample: the claim asserts that every series operation
returns an equally spaced sequence for every valid window; on a table holding
a span whose start lies in the future of the query instant, the relative
trace-count query returns the fill grid followed by the future data bucket,
which is not spaced by one step (72000 is ten hours after the last fill
boundary 36000). -/
theorem C1_counterexample_future_span_breaks_spacing :
    getTotalTraceCountMetricsRelative [futureSpan] .hour 1 1 36000
      = Except.ok [⟨36000, 0⟩, ⟨72000, 1⟩] ∧
    ¬ ([(⟨36000, 0⟩ : IntMetricTimeValue), ⟨72000, 1⟩].Chain'
        fun r r' => r'.time = r.time + stepSec .hour) := by
  refine ⟨rfl, ?_⟩
  intro h
  rw [List.chain'_cons] at h
  exact absurd h.1 (by decide)

/-- Claim C1 (amended): for every window and interval, each of the eight
series operations returns a sequence of points strictly increasing and
equally spaced by the interval step, covering every boundary of the fill
grid, with value exactly zero on every bucket carrying no trace data —
provided (for the relative mode) that no stored span starts after the query
instant; each operation returns exactly its fetched row list. -/
theorem C1_amended_gap_fill (db : List Span) (g : GroupByInterval) (p : Nat)
    (D now startNs endNs : Int) (agg : Aggregation)
    (hfut : ∀ sp ∈ db, sp.start_time ≤ now * nsPerSec) :
    SeriesSpecInt g (relGrid g D now) (relDataTimes db g p D now)
      (getTotalTraceCountMetricsRelativeRows db g p D now) ∧
    SeriesSpecFloat g (relGrid g D now) (relDataTimes db g p D now)
      (getTraceLatencySecondsMetricsRelativeRows db g p D agg now) ∧
    SeriesSpecInt g (relGrid g D now) (relDataTimes db g p D now)
      (getTotalTokenCountMetricsRelativeRows db g p D agg now) ∧
    SeriesSpecFloat g (relGrid g D now) (relDataTimes db g p D now)
      (getCostUsdMetricsRelativeRows db g p D agg now) ∧
    SeriesSpecInt g (absGrid g (startNs / nsPerSec) (endNs / nsPerSec))
      (absDataTimes db g p (startNs / nsPerSec) (endNs / nsPerSec))
      (getTotalTraceCountMetricsAbsoluteRows db g p startNs endNs) ∧
    SeriesSpecFloat g (absGrid g (startNs / nsPerSec) (endNs / nsPerSec))
      (absDataTimes db g p (startNs / nsPerSec) (endNs / nsPerSec))
      (getTraceLatencySecondsMetricsAbsoluteRows db g p startNs endNs agg) ∧
    SeriesSpecInt g (absGrid g (startNs / nsPerSec) (endNs / nsPerSec))
      (absDataTimes db g p (startNs / nsPerSec) (endNs / nsPerSec))
      (getTotalTokenCountMetricsAbsoluteRows db g p startNs endNs agg) ∧
    SeriesSpecFloat g (absGrid g (startNs / nsPerSec) (endNs / nsPerSec))
      (absDataTimes db g p (startNs / nsPerSec) (endNs / nsPerSec))
      (getCostUsdMetricsAbsoluteRows db g p startNs endNs agg) ∧
    getTotalTraceCountMetricsRelative db g p D now
      = Except.ok (getTotalTraceCountMetricsRelativeRows db g p D now) ∧
    getTraceLatencySecondsMetricsRelative db g p D agg now
      = Except.ok (getTraceLatencySecondsMetricsRelativeRows db g p D agg now) ∧
    getTotalTokenCountMetricsRelative db g p D agg now
      = Except.ok (getTotalTokenCountMetricsRelativeRows db g p D agg now) ∧
    getCostUsdMetricsRelative db g p D agg now
      = Except.ok (getCostUsdMetricsRelativeRows db g p D agg now) ∧
    getTotalTraceCountMetricsAbsolute db g p startNs endNs
      = Except.ok (getTotalTraceCountMetricsAbsoluteRows db g p startNs endNs) ∧
    getTraceLatencySecondsMetricsAbsolute db g p startNs endNs agg
      = Except.ok (getTraceLatencySecondsMetricsAbsoluteRows db g p startNs endNs agg) ∧
    getTotalTokenCountMetricsAbsolute db g p startNs endNs agg
      = Except.ok (getTotalTokenCountMetricsAbsoluteRows db g p startNs endNs agg) ∧
    getCostUsdMetricsAbsolute db g p startNs endNs agg
      = Except.ok (getCostUsdMetricsAbsoluteRows db g p startNs endNs agg) := by
  obtain ⟨a0, n, hout, hcov⟩ := relTimes_spec db g p D now hfut
  obtain ⟨a1, m, hout2, hcov2⟩ :=
    absTimes_spec db g p (startNs / nsPerSec) (endNs / nsPerSec)
  refine ⟨seriesSpecInt_of_gridTimes hout hcov,
    seriesSpecFloat_latencyPost hout hcov,
    seriesSpecInt_of_gridTimes hout hcov,
    seriesSpecFloat_of_gridTimes hout hcov,
    seriesSpecInt_of_gridTimes hout2 hcov2,
    seriesSpecFloat_latencyPost hout2 hcov2,
    seriesSpecInt_of_gridTimes hout2 hcov2,
    seriesSpecFloat_of_gridTimes hout2 hcov2,
    collectRows_map_ok _, ?_, collectRows_map_ok _, collectRows_map_ok _,
    collectRows_map_ok _, ?_, collectRows_map_ok _, collectRows_map_ok _⟩
  · unfold getTraceLatencySecondsMetricsRelative
      getTraceLatencySecondsMetricsRelativeFromCursor
      getTraceLatencySecondsMetricsRelativeRows
    rw [collectRows_map_ok]
  · unfold getTraceLatencySecondsMetricsAbsolute
      getTraceLatencySecondsMetricsAbsoluteRows
    rw [collectRows_map_ok]

/-- Claim C1 witness: the amended theorem instantiated on the empty table
with an hour interval. -/
theorem C1_amended_gap_fill_witness :
    SeriesSpecInt .hour (relGrid .hour 1 36000) (relDataTimes [] .hour 1 1 36000)
      (getTotalTraceCountMetricsRelativeRows [] .hour 1 1 36000) :=
  (C1_amended_gap_fill [] .hour 1 1 36000 0 3600000000000 sumAgg
    (by simp)).1

/-- Claim C2, counterexample: with an hour interval, a relative window of 2
hours at instant 36100 fills the boundaries 32400 and 36000, while an
absolute window of start 28900 s and end 36100 s fills 28800 and 32400; even
after removing the bucket of the instant itself (36000 = truncate 36100),
the boundary 28800 remains absolute-only, so the boundary sets are not
identical. -/
theorem C2_counterexample_shifted_boundaries :
    getTotalTraceCountMetricsRelative [] .hour 1 2 36100
      = Except.ok [⟨32400, 0⟩, ⟨36000, 0⟩] ∧
    getTotalTraceCountMetricsAbsolute [] .hour 1 (28900 * 1000000000)
      (36100 * 1000000000) = Except.ok [⟨28800, 0⟩, ⟨32400, 0⟩] ∧
    chTrunc .hour 36100 = 36000 ∧
    ([32400, 36000].filter fun t => decide (t ≠ (36000 : Int)))
      ≠ ([28800, 32400].filter fun t => decide (t ≠ (36000 : Int))) := by
  exact ⟨rfl, rfl, by decide, by decide⟩

/-- Claim C2 (amended): the relative fill boundaries are exactly the
absolute fill boundaries of the same wall-clock window shifted forward by
one step — the relative mode omits `truncate(T − D)` and appends
`truncate(T)`; flooring the absolute endpoints from nanoseconds to whole
seconds leaves the boundaries unchanged for whole-second instants. -/
theorem C2_amended_boundaries_shift_by_step (g : GroupByInterval) (T D : Int) :
    relGrid g D T = (absGrid g (T - 3600 * D) T).map (· + stepSec g) ∧
    absGrid g ((T - 3600 * D) * nsPerSec / nsPerSec) (T * nsPerSec / nsPerSec)
      = absGrid g (T - 3600 * D) T := by
  constructor
  · unfold relGrid absGrid fillGrid
    rw [show relFillFrom g D T = chTrunc g (T - 3600 * D) + stepSec g from
        chTrunc_add_step g _,
      show relFillTo g T = chTrunc g T + stepSec g from chTrunc_add_step g _,
      gridLen_shift, gridList_map_add]
  · rw [Int.mul_ediv_cancel _ (by decide : nsPerSec ≠ 0),
      Int.mul_ediv_cancel _ (by decide : nsPerSec ≠ 0)]

/-- Claim C3: a trace (group of spans sharing project and trace id) forms
exactly one CTE row; within the window its entire derived value is
attributed to exactly the bucket `truncate(MIN(start_time))` — its key
belongs to the group of that bucket and of no other — with latency derived
as `MAX(end_time) − MIN(start_time)` and reported divided by 1e9 (seconds)
after stabilization. -/
theorem C3_attribution_by_start (db : List Span) (g : GroupByInterval)
    (p : Nat) (D now : Int) (agg : Aggregation) (k : Nat × Nat)
    (hk : k ∈ relKeys db g p D now) :
    ((traceKeys db).filter fun k' => decide (k' = k)).length = 1 ∧
    (∀ t : Int, k ∈ keysAt (relKeys db g p D now) g db t ↔ t = traceTime g db k) ∧
    traceTime g db k = chTrunc g (traceStartNs db k / nsPerSec) ∧
    traceStartNs db k = chMin ((traceSpans db k).map Span.start_time) ∧
    traceEndNs db k = chMax ((traceSpans db k).map Span.end_time) ∧
    traceLatencyNs db k = traceEndNs db k - traceStartNs db k ∧
    (∀ r ∈ getTraceLatencySecondsMetricsRelativeRows db g p D agg now,
      r.time = traceTime g db k →
        r.value = roundSmallValuesToZero
          (relLatencyValue db g p D agg now (traceTime g db k) / 1000000000)) := by
  have hkt : k ∈ traceKeys db :=
    List.mem_of_mem_filter (List.mem_of_mem_filter hk)
  refine ⟨length_filter_eq_one_of_nodup (List.nodup_dedup _) hkt, ?_, rfl, rfl,
    rfl, rfl, ?_⟩
  · intro t
    unfold keysAt
    rw [List.mem_filter]
    constructor
    · rintro ⟨_, h⟩
      exact (of_decide_eq_true h).symm
    · rintro rfl
      exact ⟨hk, decide_eq_true rfl⟩
  · intro r hr hrt
    unfold getTraceLatencySecondsMetricsRelativeRows latencyPost
      getTraceLatencySecondsMetricsRelativeRawRows chFillSeriesFloat at hr
    rw [List.map_map] at hr
    obtain ⟨t, ht, rfl⟩ := List.mem_map.mp hr
    have htt : t = traceTime g db k := hrt
    have hmemd : t ∈ relDataTimes db g p D now := by
      rw [htt]
      exact List.mem_dedup.mpr (List.mem_map_of_mem _ hk)
    show roundSmallValuesToZero
      ((if t ∈ relDataTimes db g p D now
        then relLatencyValue db g p D agg now t else 0) / 1000000000) = _
    rw [if_pos hmemd, htt]

/-- Claim C3 witness: the attribution theorem instantiated on a one-span
table. -/
theorem C3_attribution_by_start_witness :
    ((traceKeys [futureSpan]).filter fun k' => decide (k' = (1, 1))).length = 1 :=
  (C3_attribution_by_start [futureSpan] .hour 1 1 36000 sumAgg (1, 1)
    (by decide)).1

/-- Evaluation of the cost rows on the one-span table with cost 1e-12. -/
theorem costRowsTinyEval :
    getCostUsdMetricsRelativeRows [tinyCostSpan] .hour 1 1 sumAgg 1800
      = [⟨0, 1 / 1000000000000⟩] := by
  unfold getCostUsdMetricsRelativeRows chFillSeriesFloat
  rw [show relGrid .hour 1 1800 = [0] from by decide,
    show relDataTimes [tinyCostSpan] .hour 1 1 1800 = [0] from by decide,
    show sortTimes ([0] ++ [0]) = [0] from by decide]
  simp only [List.map]
  rw [if_pos (by decide : (0 : Int) ∈ [0])]
  unfold relCostValue sumAgg
  rw [show keysAt (relKeys [tinyCostSpan] .hour 1 1 1800) .hour [tinyCostSpan] 0
      = [(1, 1)] from by decide]
  simp only [List.map]
  unfold traceCost
  rw [show traceSpans [tinyCostSpan] (1, 1) = [tinyCostSpan] from by
    simp [traceSpans, traceKey, tinyCostSpan]]
  simp [tinyCostSpan]

/-- Evaluation of the latency rows of the empty table: one fill row, value
zero. -/
theorem latencyRowsEmptyEval :
    getTraceLatencySecondsMetricsRelativeRows [] .hour 1 1 sumAgg 3600
      = [⟨3600, 0⟩] := by
  unfold getTraceLatencySecondsMetricsRelativeRows latencyPost
    getTraceLatencySecondsMetricsRelativeRawRows chFillSeriesFloat
  rw [show relGrid .hour 1 3600 = [3600] from by decide,
    show relDataTimes [] .hour 1 1 3600 = [] from rfl,
    show sortTimes ([3600] ++ []) = [3600] from by decide]
  simp only [List.map, List.not_mem_nil, if_false]
  norm_num [roundSmallValuesToZero]

/-- Claim C4, counterexample: the claim asserts the stabilizer is applied to
the cost family; `get_cost_usd_metrics_relative` returns a cost of 1e-12
unchanged even though the stabilizer would have zeroed it. -/
theorem C4_counterexample_cost_not_stabilized :
    getCostUsdMetricsRelative [tinyCostSpan] .hour 1 1 sumAgg 1800
      = Except.ok (getCostUsdMetricsRelativeRows [tinyCostSpan] .hour 1 1 sumAgg 1800) ∧
    getCostUsdMetricsRelativeRows [tinyCostSpan] .hour 1 1 sumAgg 1800
      = [⟨0, 1 / 1000000000000⟩] ∧
    roundSmallValuesToZero (1 / 1000000000000) = 0 ∧
    (1 / 1000000000000 : ℚ) ≠ 0 := by
  refine ⟨collectRows_map_ok _, costRowsTinyEval,
    by norm_num [roundSmallValuesToZero], by norm_num⟩

/-- Claim C4 (amended): the numeric stabilizer is applied to the
latency-in-seconds family in both window modes — every reported latency
value is a fixed point of the stabilizer — but not to the cost family (see
the counterexample) nor to the integer families, whose values are plain
integers. -/
theorem C4_amended_stabilizer_scope (db : List Span) (g : GroupByInterval)
    (p : Nat) (D now startNs endNs : Int) (agg : Aggregation) :
    (∀ r ∈ getTraceLatencySecondsMetricsRelativeRows db g p D agg now,
      roundSmallValuesToZero r.value = r.value) ∧
    (∀ r ∈ getTraceLatencySecondsMetricsAbsoluteRows db g p startNs endNs agg,
      roundSmallValuesToZero r.value = r.value) := by
  constructor
  · intro r hr
    unfold getTraceLatencySecondsMetricsRelativeRows latencyPost
      getTraceLatencySecondsMetricsRelativeRawRows chFillSeriesFloat at hr
    rw [List.map_map] at hr
    obtain ⟨t, ht, rfl⟩ := List.mem_map.mp hr
    exact roundSmall_idem _
  · intro r hr
    unfold getTraceLatencySecondsMetricsAbsoluteRows latencyPost
      getTraceLatencySecondsMetricsAbsoluteRawRows chFillSeriesFloat at hr
    rw [List.map_map] at hr
    obtain ⟨t, ht, rfl⟩ := List.mem_map.mp hr
    exact roundSmall_idem _

/-- Claim C4 witness: the stabilizer-scope theorem instantiated at the
single fill row of an empty table. -/
theorem C4_amended_stabilizer_scope_witness :
    roundSmallValuesToZero ((⟨3600, 0⟩ : FloatMetricTimeValue)).value
      = ((⟨3600, 0⟩ : FloatMetricTimeValue)).value :=
  (C4_amended_stabilizer_scope [] .hour 1 1 3600 0 0 sumAgg).1 ⟨3600, 0⟩
    (by rw [latencyRowsEmptyEval]; exact List.mem_singleton.mpr rfl)

/-- Claim C5, counterexample: the claim asserts inverted or negative windows
fail with `InvalidWindow` before reaching the store; both an absolute window
with start 7200 s > end 3600 s and a relative window of −5 hours instead
reach the store and succeed with an empty (respectively fill-only) series. -/
theorem C5_counterexample_no_invalid_window_error :
    getTotalTraceCountMetricsAbsolute [] .hour 1 (7200 * 1000000000)
      (3600 * 1000000000) = Except.ok [] ∧
    getTotalTraceCountMetricsRelative [] .hour 1 (-5) 36000 = Except.ok [] ∧
    (Except.ok [] : Except ChError (List IntMetricTimeValue))
      ≠ Except.error ChError.invalidWindow := by
  refine ⟨rfl, rfl, by simp⟩

/-- Claim C5 (amended): no window validation is performed; every window is
handed to the backing store and no operation ever fails with
`InvalidWindow` — an inverted absolute window (start above end after
flooring to seconds) yields `Ok` with the empty series, and relative windows
of any (also negative) duration yield `Ok`. -/
theorem C5_amended_no_validation (db : List Span) (g : GroupByInterval)
    (p : Nat) (agg : Aggregation) (startNs endNs D now : Int)
    (hinv : endNs / nsPerSec < startNs / nsPerSec) :
    getTotalTraceCountMetricsAbsolute db g p startNs endNs = Except.ok [] ∧
    getTraceLatencySecondsMetricsAbsolute db g p startNs endNs agg = Except.ok [] ∧
    getTotalTokenCountMetricsAbsolute db g p startNs endNs agg = Except.ok [] ∧
    getCostUsdMetricsAbsolute db g p startNs endNs agg = Except.ok [] ∧
    (∃ v, getTotalTraceCountMetricsRelative db g p D now = Except.ok v) ∧
    (∃ v, getTraceLatencySecondsMetricsRelative db g p D agg now = Except.ok v) ∧
    (∃ v, getTotalTokenCountMetricsRelative db g p D agg now = Except.ok v) ∧
    (∃ v, getCostUsdMetricsRelative db g p D agg now = Except.ok v) := by
  have hg : absGrid g (startNs / nsPerSec) (endNs / nsPerSec) = [] :=
    absGrid_inverted (le_of_lt hinv)
  have hd : absDataTimes db g p (startNs / nsPerSec) (endNs / nsPerSec) = [] :=
    absDataTimes_inverted hinv
  refine ⟨?_, ?_, ?_, ?_, ?_, ?_, ?_, ?_⟩
  · unfold getTotalTraceCountMetricsAbsolute getTotalTraceCountMetricsAbsoluteRows
    rw [hg, hd, chFillSeriesInt_nil]
    rfl
  · unfold getTraceLatencySecondsMetricsAbsolute
      getTraceLatencySecondsMetricsAbsoluteRawRows
    rw [hg, hd, chFillSeriesFloat_nil]
    rfl
  · unfold getTotalTokenCountMetricsAbsolute getTotalTokenCountMetricsAbsoluteRows
    rw [hg, hd, chFillSeriesInt_nil]
    rfl
  · unfold getCostUsdMetricsAbsolute getCostUsdMetricsAbsoluteRows
    rw [hg, hd, chFillSeriesFloat_nil]
    rfl
  · exact ⟨getTotalTraceCountMetricsRelativeRows db g p D now,
      collectRows_map_ok _⟩
  · refine ⟨latencyPost
      (getTraceLatencySecondsMetricsRelativeRawRows db g p D agg now), ?_⟩
    unfold getTraceLatencySecondsMetricsRelative
      getTraceLatencySecondsMetricsRelativeFromCursor
    rw [collectRows_map_ok]
  · exact ⟨getTotalTokenCountMetricsRelativeRows db g p D agg now,
      collectRows_map_ok _⟩
  · exact ⟨getCostUsdMetricsRelativeRows db g p D agg now,
      collectRows_map_ok _⟩

/-- Claim C5 witness: the amended theorem at the concrete inverted window of
the counterexample. -/
theorem C5_amended_no_validation_witness :
    getTotalTokenCountMetricsAbsolute [] .hour 1 (7200 * 1000000000)
      (3600 * 1000000000) sumAgg = Except.ok [] :=
  (C5_amended_no_validation [] .hour 1 sumAgg (7200 * 1000000000)
    (3600 * 1000000000) 1 0 (by decide)).2.2.1

/-- Claim C6: for a project with zero recorded spans the time-bounds query
does not signal a distinguished `Empty`: the aggregate row always arrives
and carries the column defaults, so the call returns the default-valued
tuple `(0, 0)` — the code has no `Empty` path at all, contradicting the
claim. -/
theorem C6_time_bounds_empty_default (p : Nat) :
    getTimeBounds [] p = Except.ok ⟨0, 0⟩ := rfl

/-- Claim C7: the relative fill range starts at
`truncate(now − past_duration) + step` and ends at `truncate(now) + step`:
although the code adds the one-bucket offset before truncating, the two
orders agree for every granularity because the offset is exactly one lattice
step, and the emitted grid has exactly these boundaries. -/
theorem C7_relative_fill_bounds (g : GroupByInterval) (pastHours now : Int) :
    relFillFrom g pastHours now = chTrunc g (now - 3600 * pastHours) + stepSec g ∧
    relFillTo g now = chTrunc g now + stepSec g ∧
    relGrid g pastHours now
      = fillGrid (chTrunc g (now - 3600 * pastHours) + stepSec g)
          (chTrunc g now + stepSec g) (stepSec g) := by
  refine ⟨chTrunc_add_step g _, chTrunc_add_step g _, ?_⟩
  unfold relGrid
  rw [show relFillFrom g pastHours now
      = chTrunc g (now - 3600 * pastHours) + stepSec g from chTrunc_add_step g _,
    show relFillTo g now = chTrunc g now + stepSec g from chTrunc_add_step g _]

/-- Claim C8: a failing fetch at any position of the cursor makes the whole
operation return that error with no partially accumulated rows, and a fully
successful cursor returns the complete row list (for latency, after the
post-processing pass). -/
theorem C8_no_partial_results (pre : List IntMetricTimeValue) (e : ChError)
    (rest : List (Except ChError IntMetricTimeValue))
    (l : List IntMetricTimeValue) (preF : List FloatMetricTimeValue)
    (restF : List (Except ChError FloatMetricTimeValue))
    (lF : List FloatMetricTimeValue) :
    getTotalTraceCountMetricsRelativeFromCursor
      (pre.map Except.ok ++ Except.error e :: rest) = Except.error e ∧
    getTotalTraceCountMetricsRelativeFromCursor (l.map Except.ok)
      = Except.ok l ∧
    getTraceLatencySecondsMetricsRelativeFromCursor
      (preF.map Except.ok ++ Except.error e :: restF) = Except.error e ∧
    getTraceLatencySecondsMetricsRelativeFromCursor (lF.map Except.ok)
      = Except.ok (latencyPost lF) := by
  refine ⟨collectRows_append_error pre e rest, collectRows_map_ok l, ?_, ?_⟩
  · unfold getTraceLatencySecondsMetricsRelativeFromCursor
    rw [collectRows_append_error]
  · unfold getTraceLatencySecondsMetricsRelativeFromCursor
    rw [collectRows_map_ok]

/-- Claim C9: project isolation — appending spans of foreign projects (with
arbitrary contents, including reused trace ids) changes neither any of the
eight metric queries nor the time-bounds query for the requested project,
because the per-trace grouping key includes the project id and all results
are filtered to it. -/
theorem C9_project_isolation (db extra : List Span) (g : GroupByInterval)
    (p : Nat) (D now startNs endNs : Int) (agg : Aggregation)
    (hext : ∀ sp ∈ extra, sp.project_id ≠ p) :
    getTotalTraceCountMetricsRelative (db ++ extra) g p D now
      = getTotalTraceCountMetricsRelative db g p D now ∧
    getTraceLatencySecondsMetricsRelative (db ++ extra) g p D agg now
      = getTraceLatencySecondsMetricsRelative db g p D agg now ∧
    getTotalTokenCountMetricsRelative (db ++ extra) g p D agg now
      = getTotalTokenCountMetricsRelative db g p D agg now ∧
    getCostUsdMetricsRelative (db ++ extra) g p D agg now
      = getCostUsdMetricsRelative db g p D agg now ∧
    getTotalTraceCountMetricsAbsolute (db ++ extra) g p startNs endNs
      = getTotalTraceCountMetricsAbsolute db g p startNs endNs ∧
    getTraceLatencySecondsMetricsAbsolute (db ++ extra) g p startNs endNs agg
      = getTraceLatencySecondsMetricsAbsolute db g p startNs endNs agg ∧
    getTotalTokenCountMetricsAbsolute (db ++ extra) g p startNs endNs agg
      = getTotalTokenCountMetricsAbsolute db g p startNs endNs agg ∧
    getCostUsdMetricsAbsolute (db ++ extra) g p startNs endNs agg
      = getCostUsdMetricsAbsolute db g p startNs endNs agg ∧
    getTimeBounds (db ++ extra) p = getTimeBounds db p := by
  have h1 : getTotalTraceCountMetricsRelativeRows (db ++ extra) g p D now
      = getTotalTraceCountMetricsRelativeRows db g p D now := by
    unfold getTotalTraceCountMetricsRelativeRows
    rw [relDataTimes_append hext, relCountValue_append hext]
  have h2 : getTraceLatencySecondsMetricsRelativeRawRows (db ++ extra) g p D agg now
      = getTraceLatencySecondsMetricsRelativeRawRows db g p D agg now := by
    unfold getTraceLatencySecondsMetricsRelativeRawRows
    rw [relDataTimes_append hext, relLatencyValue_append hext]
  have h3 : getTotalTokenCountMetricsRelativeRows (db ++ extra) g p D agg now
      = getTotalTokenCountMetricsRelativeRows db g p D agg now := by
    unfold getTotalTokenCountMetricsRelativeRows
    rw [relDataTimes_append hext, relTokenValue_append hext]
  have h4 : getCostUsdMetricsRelativeRows (db ++ extra) g p D agg now
      = getCostUsdMetricsRelativeRows db g p D agg now := by
    unfold getCostUsdMetricsRelativeRows
    rw [relDataTimes_append hext, relCostValue_append hext]
  have h5 : getTotalTraceCountMetricsAbsoluteRows (db ++ extra) g p startNs endNs
      = getTotalTraceCountMetricsAbsoluteRows db g p startNs endNs := by
    unfold getTotalTraceCountMetricsAbsoluteRows
    rw [absDataTimes_append hext, absCountValue_append hext]
  have h6 : getTraceLatencySecondsMetricsAbsoluteRawRows (db ++ extra) g p startNs endNs agg
      = getTraceLatencySecondsMetricsAbsoluteRawRows db g p startNs endNs agg := by
    unfold getTraceLatencySecondsMetricsAbsoluteRawRows
    rw [absDataTimes_append hext, absLatencyValue_append hext]
  have h7 : getTotalTokenCountMetricsAbsoluteRows (db ++ extra) g p startNs endNs agg
      = getTotalTokenCountMetricsAbsoluteRows db g p startNs endNs agg := by
    unfold getTotalTokenCountMetricsAbsoluteRows
    rw [absDataTimes_append hext, absTokenValue_append hext]
  have h8 : getCostUsdMetricsAbsoluteRows (db ++ extra) g p startNs endNs agg
      = getCostUsdMetricsAbsoluteRows db g p startNs endNs agg := by
    unfold getCostUsdMetricsAbsoluteRows
    rw [absDataTimes_append hext, absCostValue_append hext]
  refine ⟨?_, ?_, ?_, ?_, ?_, ?_, ?_, ?_, getTimeBounds_append hext⟩
  · unfold getTotalTraceCountMetricsRelative
      getTotalTraceCountMetricsRelativeFromCursor
    rw [h1]
  · unfold getTraceLatencySecondsMetricsRelative
      getTraceLatencySecondsMetricsRelativeFromCursor
    rw [h2]
  · unfold getTotalTokenCountMetricsRelative
    rw [h3]
  · unfold getCostUsdMetricsRelative
    rw [h4]
  · unfold getTotalTraceCountMetricsAbsolute
    rw [h5]
  · unfold getTraceLatencySecondsMetricsAbsolute
    rw [h6]
  · unfold getTotalTokenCountMetricsAbsolute
    rw [h7]
  · unfold getCostUsdMetricsAbsolute
    rw [h8]

/-- Claim C9 witness: the isolation theorem at a concrete foreign-project
span reusing trace id 1. -/
theorem C9_project_isolation_witness :
    getTimeBounds ([] ++ [otherProjectSpan]) 1 = getTimeBounds [] 1 :=
  (C9_project_isolation [] [otherProjectSpan] .hour 1 1 0 0 0 sumAgg
    (by decide)).2.2.2.2.2.2.2.2

/-- Claim C10: for every absolute-window operation the supplied instants are
floored to whole seconds before use, for both the range filter and the fill
boundaries: windows differing only in sub-second components produce
identical results. -/
theorem C10_subsecond_flooring (db : List Span) (g : GroupByInterval)
    (p : Nat) (agg : Aggregation) (s1 s2 e1 e2 : Int)
    (hs : s1 / nsPerSec = s2 / nsPerSec) (he : e1 / nsPerSec = e2 / nsPerSec) :
    getTotalTraceCountMetricsAbsolute db g p s1 e1
      = getTotalTraceCountMetricsAbsolute db g p s2 e2 ∧
    getTraceLatencySecondsMetricsAbsolute db g p s1 e1 agg
      = getTraceLatencySecondsMetricsAbsolute db g p s2 e2 agg ∧
    getTotalTokenCountMetricsAbsolute db g p s1 e1 agg
      = getTotalTokenCountMetricsAbsolute db g p s2 e2 agg ∧
    getCostUsdMetricsAbsolute db g p s1 e1 agg
      = getCostUsdMetricsAbsolute db g p s2 e2 agg := by
  unfold getTotalTraceCountMetricsAbsolute getTotalTraceCountMetricsAbsoluteRows
    getTraceLatencySecondsMetricsAbsolute getTraceLatencySecondsMetricsAbsoluteRawRows
    getTotalTokenCountMetricsAbsolute getTotalTokenCountMetricsAbsoluteRows
    getCostUsdMetricsAbsolute getCostUsdMetricsAbsoluteRows
  rw [hs, he]
  exact ⟨rfl, rfl, rfl, rfl⟩

/-- Claim C10 witness: two absolute windows differing only below one second
produce the same result. -/
theorem C10_subsecond_flooring_witness :
    getTotalTraceCountMetricsAbsolute [] .hour 1 5 1000000000
      = getTotalTraceCountMetricsAbsolute [] .hour 1 7 1000000003 :=
  (C10_subsecond_flooring [] .hour 1 sumAgg 5 7 1000000000 1000000003
    (by decide) (by decide)).1

end ChSpans
